import Mathlib

/-!
Shallow embedding of the circles-rs transfer pipeline (crates `utils`,
`pathfinder` and `transfers`) together with proofs about the behaviour of the
embedded code.

Modelling conventions, used consistently below:

* A 20-byte address is modelled as the natural number given by its big-endian
  bytes; the byte-wise slice ordering used by the Rust code coincides with the
  numeric ordering of that value.
* Machine integers (`u16`, `u64`, `U192`, `U256`) are modelled as `Nat` with an
  explicit `% 2 ^ w` (or an explicit saturation) exactly where the Rust code
  can wrap or saturate.
* Rust functions that can panic are embedded as `Option`-valued functions;
  `none` models a panic (the function never returns).
* `std::collections::HashMap` values are embedded as lookup functions
  `κ → Option ν`.  Where the Rust code iterates over a `HashMap` (an order the
  language does not specify), the embedding takes the iteration order as an
  explicit list parameter.
-/

namespace Circles

/-! ## Currency converter, from `crates/utils/src/converter.rs` -/

/-- Constant `GAMMA_36` from `converter.rs`: `0.93^(1/365.25)` scaled to `1e36`. -/
def gamma_36 : Nat := 999801332008598957430613406568191166

/-- Constant `BETA_36` from `converter.rs`: `1/GAMMA` scaled to `1e36`. -/
def beta_36 : Nat := 1000198707468214629156271489013303962

/-- Constant `ONE_36 = 1e36` from `converter.rs`. -/
def one_36 : Nat := 1000000000000000000000000000000000000

/-- Constant `SECONDS_PER_DAY` from `converter.rs`. -/
def SECONDS_PER_DAY : Nat := 86400

/-- Constant `INFLATION_DAY_ZERO_UNIX` from `converter.rs`. -/
def INFLATION_DAY_ZERO_UNIX : Nat := 1602720000

/-- Embedding of `day_from_timestamp` (`converter.rs` lines 27-31).  The Rust
code casts the `u64` argument to `i64` (wrapping at `2^63`) and divides with
the `i64` `/` operator, which truncates toward zero: that is `Int.tdiv`. -/
def day_from_timestamp (unix_seconds : Nat) : Int :=
  let secs : Int := if unix_seconds < 2 ^ 63 then (unix_seconds : Int) else (unix_seconds : Int) - 2 ^ 64
  Int.tdiv (secs - (INFLATION_DAY_ZERO_UNIX : Int)) (SECONDS_PER_DAY : Int)

/-- Loop body of `pow36` (`converter.rs` lines 33-45): binary exponentiation in
the `1e36`-scaled domain.  The Rust `while e > 0` loop halves `e` each
iteration, so `e` itself is enough fuel; the fuel argument only makes the
recursion structural and does not change the computed value. -/
def pow36_aux : Nat → Nat → Nat → Nat → Nat
  | 0, acc, _, _ => acc
  | fuel + 1, acc, b, e =>
    if e = 0 then acc
    else pow36_aux fuel (if e % 2 = 1 then acc * b / one_36 else acc) (b * b / one_36) (e / 2)

/-- Embedding of `pow36` from `converter.rs`: `base^e` in the scaled domain,
every multiplication floor-divided by `ONE_36`. -/
def pow36 (base e : Nat) : Nat := pow36_aux e one_36 base e

/-- Embedding of `atto_circles_to_atto_static_circles` (`converter.rs` lines
71-83): demurraged atto-circles to static atto-circles.  The Rust signature
takes `Option<u64>`; `None` means the current system time, which the embedding
passes in as the extra `now` parameter. -/
def atto_circles_to_atto_static_circles (demurraged : Nat) (now_unix_seconds : Option Nat)
    (now : Nat) : Nat :=
  let day := day_from_timestamp (now_unix_seconds.getD now)
  if day < 0 then demurraged
  else demurraged * pow36 beta_36 day.toNat / one_36

/-- Embedding of `atto_static_circles_to_atto_circles` (`converter.rs` lines
89-101): static atto-circles to demurraged atto-circles. -/
def atto_static_circles_to_atto_circles (static_circles : Nat) (now_unix_seconds : Option Nat)
    (now : Nat) : Nat :=
  let day := day_from_timestamp (now_unix_seconds.getD now)
  if day < 0 then static_circles
  else static_circles * pow36 gamma_36 day.toNat / one_36

/-! ## Data types from `crates/types/src/pathfinding.rs` -/

/-- Embedding of `circles_types::TransferStep` (`pathfinding.rs` lines
146-151).  `value` is a `U192`, kept as a `Nat` below `2^192`. -/
structure TransferStep where
  from_address : Nat
  to_address : Nat
  token_owner : Nat
  value : Nat
  deriving DecidableEq, Repr

/-- Embedding of `circles_types::FlowEdge` (`pathfinding.rs` lines 129-132). -/
structure FlowEdge where
  stream_sink_id : Nat
  amount : Nat
  deriving DecidableEq, Repr

/-- Embedding of `circles_types::Stream` (`pathfinding.rs` lines 137-141).
`data` is the byte vector attached to the stream. -/
structure Stream where
  source_coordinate : Nat
  flow_edge_ids : List Nat
  data : List Nat
  deriving DecidableEq, Repr

/-- Embedding of `circles_types::FlowMatrix` (`pathfinding.rs` lines 156-162),
the type returned by `create_flow_matrix`. -/
structure FlowMatrix where
  flow_vertices : List Nat
  flow_edges : List FlowEdge
  streams : List Stream
  packed_coordinates : List Nat
  source_coordinate : Nat
  deriving DecidableEq, Repr

/-- Embedding of `PathfinderError` (`pathfinder/src/lib.rs` lines 148-178).
The enum has exactly three variants; `Transport` carries a transport error and
`RpcResponse` a message, with the payloads elided here because no embedded
pure function constructs them with meaningful content. -/
inductive PathfinderError where
  | Imbalanced (terminal_sum : Nat) (expected : Nat)
  | Transport
  | RpcResponse (msg : String)
  deriving DecidableEq, Repr

/-- Decidable equality for `Except`, used to evaluate embedded results on
concrete inputs. -/
instance {ε α : Type} [DecidableEq ε] [DecidableEq α] : DecidableEq (Except ε α) := fun x y =>
  match x, y with
  | .ok a, .ok b =>
    if h : a = b then .isTrue (congrArg Except.ok h)
    else .isFalse fun hc => h (Except.ok.inj hc)
  | .error a, .error b =>
    if h : a = b then .isTrue (congrArg Except.error h)
    else .isFalse fun hc => h (Except.error.inj hc)
  | .ok _, .error _ => .isFalse fun hc => Except.noConfusion hc
  | .error _, .ok _ => .isFalse fun hc => Except.noConfusion hc

/-! ## Coordinate packing, from `crates/pathfinder/src/packing.rs` -/

/-- Embedding of `pack_coordinates` (`packing.rs` lines 29-36): each `u16`
coordinate becomes two big-endian bytes (`c >> 8`, then `c & 0xff`). -/
def pack_coordinates (coords : List Nat) : List Nat :=
  coords.foldr (fun c out => c / 256 :: c % 256 :: out) []

/-- The list of addresses referenced by `transform_to_flow_vertices`
(`packing.rs` lines 51-62): `from`, `to` and, for every transfer, its
`from_address`, `to_address` and `token_owner`. -/
def collect_addrs (transfers : List TransferStep) (src dst : Nat) : List Nat :=
  src :: dst :: transfers.foldr
    (fun t acc => t.from_address :: t.to_address :: t.token_owner :: acc) []

/-- Insertion of an address into a strictly ascending duplicate-free list,
keeping it strictly ascending and duplicate-free. -/
def insert_addr (a : Nat) : List Nat → List Nat
  | [] => [a]
  | b :: rest =>
    if a < b then a :: b :: rest
    else if a = b then b :: rest
    else b :: insert_addr a rest

/-- The sorted vertex list of `transform_to_flow_vertices` (`packing.rs` lines
55-65): the distinct collected addresses in ascending byte-wise (numeric)
order.  The Rust code materialises a `HashSet` and sorts it; the embedding
builds the same strictly sorted duplicate-free list by repeated insertion. -/
def sorted_vertices (transfers : List TransferStep) (src dst : Nat) : List Nat :=
  (collect_addrs transfers src dst).foldr insert_addr []

/-- Embedding of `transform_to_flow_vertices` (`packing.rs` lines 51-72).  The
returned index map sends an address to its position in the sorted vertex list
(the Rust `HashMap<Nat, usize>`). -/
def transform_to_flow_vertices (transfers : List TransferStep) (src dst : Nat) :
    List Nat × (Nat → Nat) :=
  let sorted := sorted_vertices transfers src dst
  (sorted, fun a => sorted.indexOf a)

/-! ## Flow matrix construction, from `crates/pathfinder/src/flow.rs` -/

/-- Edge construction step of `create_flow_matrix` (`flow.rs` lines 71-77):
one edge per transfer, `stream_sink_id = 1` exactly when the hop ends at the
receiver. -/
def mark_edges (receiver : Nat) (transfers : List TransferStep) : List FlowEdge :=
  transfers.map fun t =>
    { stream_sink_id := if t.to_address = receiver then 1 else 0, amount := t.value }

/-- Embedding of `Iterator::rposition`: index of the last element satisfying
the predicate. -/
def rposition (p : α → Bool) : List α → Option Nat
  | [] => none
  | x :: xs =>
    match rposition p xs with
    | some i => some (i + 1)
    | none => if p x then some 0 else none

/-- Terminal sum of `create_flow_matrix` (`flow.rs` lines 89-93): the `U192`
sum of the amounts of the edges with `stream_sink_id = 1`.  The sum is reduced
modulo `2^192` where the machine addition would wrap. -/
def terminal_sum (edges : List FlowEdge) : Nat :=
  ((edges.filter fun e => e.stream_sink_id == 1).map fun e => e.amount).sum % 2 ^ 192

/-- The edge list after the terminal-edge guarantee of `create_flow_matrix`
(`flow.rs` lines 79-86): if no edge is terminal, the final edge is promoted
(the `rposition` fallback never fires, because when no edge is terminal no
transfer ends at the receiver either).  On the empty list this returns the
empty list; `create_flow_matrix` itself panics there, see below. -/
def ensure_terminal_edges (receiver : Nat) (transfers : List TransferStep) : List FlowEdge :=
  let edges := mark_edges receiver transfers
  if edges.any fun e => e.stream_sink_id == 1 then edges
  else
    match edges[edges.length - 1]? with
    | some e => edges.set (edges.length - 1) { e with stream_sink_id := 1 }
    | none => edges

/-- Stream edge-id list of `create_flow_matrix` (`flow.rs` lines 102-106): the
positions of the terminal edges, each cast `as u16` (wrapping at `2^16`). -/
def term_edge_ids (edges : List FlowEdge) : List Nat :=
  edges.enum.filterMap fun p =>
    if p.2.stream_sink_id == 1 then some (p.1 % 2 ^ 16) else none

/-- Coordinate list of `create_flow_matrix` (`flow.rs` lines 115-120): for
every transfer, in order, the indices of `token_owner`, `from_address` and
`to_address`, each cast `as u16` (wrapping at `2^16`). -/
def triple_coords (transfers : List TransferStep) (idx : Nat → Nat) : List Nat :=
  transfers.foldr
    (fun t acc =>
      idx t.token_owner % 2 ^ 16 :: idx t.from_address % 2 ^ 16 :: idx t.to_address % 2 ^ 16 :: acc)
    []

/-- Success payload of `create_flow_matrix` (`flow.rs` lines 101-129), built
from the already marked-and-promoted edge list. -/
def build_matrix (sender receiver : Nat) (transfers : List TransferStep)
    (edges : List FlowEdge) : FlowMatrix :=
  let (flow_vertices, idx) := transform_to_flow_vertices transfers sender receiver
  { flow_vertices := flow_vertices
    flow_edges := edges
    streams := [{ source_coordinate := idx sender % 2 ^ 16
                  flow_edge_ids := term_edge_ids edges
                  data := [] }]
    packed_coordinates := pack_coordinates (triple_coords transfers idx)
    source_coordinate := idx sender % 2 ^ 16 }

/-- Balance check and return of `create_flow_matrix` (`flow.rs` lines
88-129). -/
def finish_matrix (sender receiver : Nat) (value : Nat) (transfers : List TransferStep)
    (edges : List FlowEdge) : Except PathfinderError FlowMatrix :=
  if terminal_sum edges = value then .ok (build_matrix sender receiver transfers edges)
  else .error (.Imbalanced (terminal_sum edges) value)

/-- Embedding of `create_flow_matrix` (`flow.rs` lines 62-130).  `none` models
a panic: on an empty transfer list with no terminal edge the Rust code
evaluates `flow_edges.len() - 1` (underflow) and indexes out of bounds, so it
never returns; the embedding reaches the `none` branch through the failing
index lookup. -/
def create_flow_matrix (sender receiver : Nat) (value : Nat)
    (transfers : List TransferStep) : Option (Except PathfinderError FlowMatrix) :=
  let flow_edges := mark_edges receiver transfers
  if flow_edges.any fun e => e.stream_sink_id == 1 then
    some (finish_matrix sender receiver value transfers flow_edges)
  else
    let fallback := (rposition (fun t => t.to_address == receiver) transfers).getD
      (flow_edges.length - 1)
    match flow_edges[fallback]? with
    | some e =>
      some (finish_matrix sender receiver value transfers
        (flow_edges.set fallback { e with stream_sink_id := 1 }))
    | none => none

/-! ## Types used by the wrapper reconciler and the transfer builder -/

/-- Embedding of `circles_types::TokenInfo` (`types/src/token.rs` lines
27-39), restricted to the fields the embedded code reads: `timestamp`,
`token_type`, `token_owner` (the underlying avatar).  The remaining metadata
fields (block number, log index, hash, version, `token`) are never inspected
by the functions embedded here. -/
structure TokenInfo where
  timestamp : Nat
  token_type : String
  token_owner : Nat
  deriving DecidableEq, Repr

/-- Embedding of `circles_types::PathfindingTransferStep`
(`types/src/pathfinding.rs` lines 32-37).  In the Rust type `token_owner` is a
textual address (`String`); the embedding stores the parsed address, and the
`Nat::from_str` / `to_lowercase` round-trips of the source are modelled as
the identity on it. -/
structure PathfindingTransferStep where
  from_address : Nat
  to_address : Nat
  token_owner : Nat
  value : Nat
  deriving DecidableEq, Repr

/-- Embedding of `circles_types::PathfindingResult` (`types/src/pathfinding.rs`
lines 41-44).  `max_flow` is a `U256`, kept as a `Nat` below `2^256`. -/
structure PathfindingResult where
  max_flow : Nat
  transfers : List PathfindingTransferStep
  deriving DecidableEq, Repr

/-- Embedding of `TransfersErrorSource` (`transfers/src/error.rs` lines
6-11). -/
inductive TransfersErrorSource where
  | Transfers
  | Pathfinding
  | FlowMatrix
  | Validation
  deriving DecidableEq, Repr

/-- Embedding of `TransferError` (`transfers/src/error.rs` lines 15-58).  The
human-readable message strings carried by the Rust variants (and the decimal
renderings of the amounts) are elided; the numeric and address payloads are
kept. -/
inductive TransferError where
  | Generic (category : TransfersErrorSource)
  | NoPathFound (from_address : Nat) (to_address : Nat)
  | InsufficientBalance (requested : Nat) (available : Nat)
      (from_address : Nat) (to_address : Nat)
  | WrappedTokensRequired
  | UnregisteredAvatars (addresses : List Nat) (count : Nat)
  | FlowMatrixMismatch (terminal_sum : Nat) (expected : Nat)
  | EmptyPath (from_address : Nat) (to_address : Nat)
  deriving DecidableEq, Repr

/-- The call payload of a prepared transaction.  The Rust code ABI-encodes the
calls with `alloy`; the embedding keeps the decoded arguments, one constructor
per call shape used by the builder (`setApprovalForAll`,
`DemurrageCircles::unwrap`, `InflationaryCircles::unwrap`, `HubV2::wrap`,
`HubV2::operateFlowMatrix`). -/
inductive CallData where
  | approveCall (operator : Nat) (approved : Bool)
  | unwrapDemCall (amount : Nat)
  | unwrapInfCall (amount : Nat)
  | wrapCall (avatar : Nat) (amount : Nat) (ty : Nat)
  | operateFlowMatrixCall (vertices : List Nat) (edges : List (Nat × Nat))
      (streams : List (Nat × List Nat × List Nat)) (packed : List Nat)
  deriving DecidableEq, Repr

/-- Embedding of `TransferTx` (`transfers/src/builder.rs` lines 19-23). -/
structure TransferTx where
  to_address : Nat
  data : CallData
  value : Nat
  deriving DecidableEq, Repr

/-- Embedding of `circles_types::AdvancedTransferOptions`, restricted to the
fields the embedded code inspects (`use_wrapped_balances`, `from_tokens`,
`to_tokens`, `tx_data`); the remaining fields are passed through to the remote
pathfinder service, which the embedding takes as an explicit `path`
parameter. -/
structure AdvancedTransferOptions where
  use_wrapped_balances : Option Bool
  from_tokens : Option (List Nat)
  to_tokens : Option (List Nat)
  tx_data : Option (List Nat)
  deriving DecidableEq, Repr

/-! ## Wrapper bookkeeping, from `crates/pathfinder/src/path.rs` -/

/-- Boolean test for `str::starts_with` on the character lists of two
strings. -/
def starts_with (s p : String) : Bool := p.data.isPrefixOf s.data

/-- Boolean test for `str::contains` (substring occurrence) on the character
lists of two strings. -/
def contains_substring (s sub : String) : Bool :=
  s.data.tails.any fun t => sub.data.isPrefixOf t

/-- Wrapper-kind normalisation of `token_info_map_from_path` (`path.rs` lines
34-40): a wrapper token type without the inflationary marker is coerced to
`CrcV2_ERC20WrapperDeployed_Demurraged`. -/
def normalize_token_info (info : TokenInfo) : TokenInfo :=
  let is_wrapper := starts_with info.token_type "CrcV2_ERC20WrapperDeployed"
  let is_inflationary := contains_substring info.token_type "Inflationary"
  if is_wrapper && !is_inflationary then
    { info with token_type := "CrcV2_ERC20WrapperDeployed_Demurraged" }
  else info

/-- Embedding of `token_info_map_from_path` (`path.rs` lines 13-43) as a map
from addresses to token info.  The Rust function batch-queries the token-info
service for the distinct `token_owner`s of the transfers whose `from` is the
current avatar; the service is embedded as the `resolver` parameter, and the
resulting map answers only for those owners, with the normalisation above
applied. -/
def token_info_map_from_path (current_avatar : Nat)
    (resolver : Nat → Option TokenInfo) (path : PathfindingResult) :
    Nat → Option TokenInfo :=
  fun w =>
    if path.transfers.any fun t => t.from_address == current_avatar && t.token_owner == w then
      (resolver w).map normalize_token_info
    else none

/-- Saturating `U256` addition (`U256::saturating_add`). -/
def sat_add_u256 (a b : Nat) : Nat := min (a + b) (2 ^ 256 - 1)

/-- Embedding of `wrapped_totals_from_path` (`path.rs` lines 49-66) as a map:
for a wrapper address with token info whose type starts with
`CrcV2_ERC20WrapperDeployed`, the saturating sum of the values of the path
edges owned by it, paired with the token type.  An address with no such edge
has no entry (the Rust map only gains keys from edges). -/
def wrapped_totals_from_path (path : PathfindingResult)
    (token_info_map : Nat → Option TokenInfo) : Nat → Option (Nat × String) :=
  fun w =>
    match token_info_map w with
    | some info =>
      if starts_with info.token_type "CrcV2_ERC20WrapperDeployed" then
        match path.transfers.filter fun t => t.token_owner == w with
        | [] => none
        | owned => some (owned.foldl (fun acc t => sat_add_u256 acc t.value) 0, info.token_type)
      else none
    | none => none

/-- Embedding of `expected_unwrapped_totals` (`path.rs` lines 72-93) as a map:
per wrapper, the expected unwrapped amount and the underlying avatar.  For an
inflationary wrapper the total is converted static-to-demurraged with the
token timestamp hint (`None`, i.e. the current time `now`, when the timestamp
is zero); otherwise the total is kept unchanged. -/
def expected_unwrapped_totals (wrapped_totals : Nat → Option (Nat × String))
    (token_info_map : Nat → Option TokenInfo) (now : Nat) :
    Nat → Option (Nat × Nat) :=
  fun w =>
    match wrapped_totals w, token_info_map w with
    | some (total, ty), some info =>
      let ts_hint := if info.timestamp > 0 then some info.timestamp else none
      let amount :=
        if ty == "CrcV2_ERC20WrapperDeployed_Inflationary" then
          atto_static_circles_to_atto_circles total ts_hint now
        else total
      some (amount, info.token_owner)
    | _, _ => none

/-- Embedding of `replace_wrapped_tokens` (`path.rs` lines 99-127): every edge
whose `token_owner` has an entry in the unwrapped map gets that entry's
underlying avatar as its new `token_owner`; all other fields are preserved. -/
def replace_wrapped_tokens (path : PathfindingResult)
    (unwrapped : Nat → Option (Nat × Nat)) : PathfindingResult :=
  { max_flow := path.max_flow
    transfers := path.transfers.map fun edge =>
      { edge with token_owner :=
          match unwrapped edge.token_owner with
          | some (_, avatar) => avatar
          | none => edge.token_owner } }

/-! ## Transfer builder, from `crates/transfers/src/builder.rs` -/

/-- Embedding of `truncate_to_six_decimals` (`builder.rs` lines 380-383). -/
def truncate_to_six_decimals (amount : Nat) : Nat :=
  let unit := 1000000000000
  amount / unit * unit

/-- Embedding of `u256_to_u192_local` (`builder.rs` lines 385-393): a value
whose high (fourth) limb is non-zero, i.e. a value of at least `2^192`,
saturates to `U192::MAX = 2^192 - 1`; otherwise the low three limbs are the
value itself. -/
def u256_to_u192_local (value : Nat) : Nat :=
  if value < 2 ^ 192 then value else 2 ^ 192 - 1

/-- Body of the per-wrapper loop of `assemble_transactions_inner`
(`builder.rs` lines 195-242), producing the unwrap transactions and the
re-wrap transactions contributed by one wrapper whose unwrapped entry carries
the demurraged amount `amount_dem`.  `hub` is `config.v2_hub_address`. -/
def unwrap_rewrap_for (hub : Nat) (token_info_map : Nat → Option TokenInfo)
    (balance_map : Nat → Option Nat) (now : Nat) (wrapper : Nat) (amount_dem : Nat) :
    List TransferTx × List TransferTx :=
  match token_info_map wrapper with
  | none => ([], [])
  | some info =>
    if info.token_type == "CrcV2_ERC20WrapperDeployed_Demurraged" then
      ([{ to_address := wrapper, data := .unwrapDemCall amount_dem, value := 0 }], [])
    else if info.token_type == "CrcV2_ERC20WrapperDeployed_Inflationary" then
      let ts_hint := if info.timestamp > 0 then some info.timestamp else none
      let static_amt := atto_circles_to_atto_static_circles amount_dem ts_hint now
      let rewraps :=
        match balance_map wrapper with
        | some current_static =>
          let leftover := current_static - static_amt
          if leftover > 0 then
            [{ to_address := hub, data := .wrapCall info.token_owner leftover 1, value := 0 }]
          else []
        | none => []
      ([{ to_address := wrapper, data := .unwrapInfCall static_amt, value := 0 }], rewraps)
    else ([], [])

/-- The `for (wrapper, (amount_dem, _owner)) in &unwrapped_map` loop of
`assemble_transactions_inner` (`builder.rs` lines 193-242).  Rust iterates the
`HashMap` in an order the language does not specify; the embedding takes that
iteration order as the explicit list `iter` of wrapper addresses (an
enumeration of the map's keys). -/
def build_unwraps_rewraps (hub : Nat) (token_info_map : Nat → Option TokenInfo)
    (balance_map : Nat → Option Nat) (now : Nat)
    (unwrapped : Nat → Option (Nat × Nat)) :
    List Nat → List TransferTx × List TransferTx
  | [] => ([], [])
  | w :: rest =>
    let head :=
      match unwrapped w with
      | some (amount_dem, _) => unwrap_rewrap_for hub token_info_map balance_map now w amount_dem
      | none => ([], [])
    let tail := build_unwraps_rewraps hub token_info_map balance_map now unwrapped rest
    (head.1 ++ tail.1, head.2 ++ tail.2)

/-- The transfer-step list handed to `create_flow_matrix` by
`assemble_transactions_inner` (`builder.rs` lines 249-261): the rewritten path
steps with their `U256` values narrowed by `u256_to_u192_local`. -/
def steps_for_matrix (path_unwrapped : PathfindingResult) : List TransferStep :=
  path_unwrapped.transfers.map fun t =>
    { from_address := t.from_address
      to_address := t.to_address
      token_owner := t.token_owner
      value := u256_to_u192_local t.value }

/-- Embedding of `assemble_transactions_inner` (`builder.rs` lines 179-327).
External state is passed explicitly: `iter` is the `HashMap` iteration order
of `unwrapped_map`, `approval_probe` the result of the on-chain
`isApprovedForAll` probe (`none` for a transport failure, `some b` for
`needs_approval = b`), `now` the system clock used when a token has no
timestamp hint.  `self_check` is the builder's `check_approval` flag and
`check_approval` the function argument of the same name.  `none` models a
panic inside `create_flow_matrix`. -/
def assemble_transactions_inner (hub : Nat) (self_check : Bool)
    (sender receiver : Nat) (path : PathfindingResult)
    (token_info_map : Nat → Option TokenInfo)
    (wrapped_totals : Nat → Option (Nat × String)) (iter : List Nat)
    (balance_map : Nat → Option Nat) (opts : AdvancedTransferOptions)
    (check_approval : Bool) (approval_probe : Option Bool) (now : Nat) :
    Option (Except TransferError (List TransferTx)) :=
  let unwrapped_map := expected_unwrapped_totals wrapped_totals token_info_map now
  let unwraps_rewraps := build_unwraps_rewraps hub token_info_map balance_map now
    unwrapped_map iter
  let unwraps := unwraps_rewraps.1
  let rewraps := unwraps_rewraps.2
  let path_unwrapped := replace_wrapped_tokens path unwrapped_map
  let transfers := steps_for_matrix path_unwrapped
  match create_flow_matrix sender receiver (u256_to_u192_local path.max_flow) transfers with
  | none => none
  | some (.error _) => some (.error (.Generic .FlowMatrix))
  | some (.ok fm) =>
    let fm :=
      match opts.tx_data with
      | some d =>
        { fm with streams :=
            match fm.streams with
            | s :: rest => { s with data := d } :: rest
            | [] => [] }
      | none => fm
    let op_tx : TransferTx :=
      { to_address := hub
        data := .operateFlowMatrixCall fm.flow_vertices
          (fm.flow_edges.map fun e => (e.stream_sink_id, e.amount))
          (fm.streams.map fun s => (s.source_coordinate, s.flow_edge_ids, s.data))
          fm.packed_coordinates
        value := 0 }
    let needs_approval :=
      if check_approval && self_check then approval_probe.getD true else true
    let txs :=
      (if needs_approval then
        [{ to_address := hub, data := .approveCall sender true, value := 0 }]
      else []) ++ unwraps ++ [op_tx] ++ rewraps
    some (.ok txs)

/-- Default options installed by `construct_advanced_transfer` (`builder.rs`
lines 94-103) when the caller passes none. -/
def default_options : AdvancedTransferOptions :=
  { use_wrapped_balances := some true
    from_tokens := none
    to_tokens := none
    tx_data := none }

/-- Main body of `construct_advanced_transfer` after the self-transfer fast
path (`builder.rs` lines 94-176): quantization, the empty-path and
insufficient-flow checks, wrapper bookkeeping and the final assembly (with
`check_approval = true` as at the call site on line 166-175). -/
def construct_main (hub : Nat) (self_check : Bool) (sender receiver : Nat)
    (amount : Nat) (options : Option AdvancedTransferOptions) (path : PathfindingResult)
    (resolver : Nat → Option TokenInfo) (iter : List Nat)
    (balance_map : Nat → Option Nat) (approval_probe : Option Bool) (now : Nat) :
    Option (Except TransferError (List TransferTx)) :=
  let opts := options.getD default_options
  let target_flow := truncate_to_six_decimals amount
  if path.transfers.isEmpty then some (.error (.NoPathFound sender receiver))
  else if path.max_flow < target_flow then
    some (.error (.InsufficientBalance target_flow path.max_flow sender receiver))
  else
    let token_info_map := token_info_map_from_path sender resolver path
    let wrapped_totals := wrapped_totals_from_path path token_info_map
    let has_wrapped := path.transfers.any fun t => (wrapped_totals t.token_owner).isSome
    if has_wrapped && opts.use_wrapped_balances.getD false == false then
      some (.error .WrappedTokensRequired)
    else
      assemble_transactions_inner hub self_check sender receiver path token_info_map
        wrapped_totals iter balance_map opts true approval_probe now

/-- Embedding of `construct_advanced_transfer` (`builder.rs` lines 66-176).
The remote interactions are explicit parameters: `path` is the pathfinder
response, `resolver` the token-info service, `balance_map` the static-balance
fetch, `self_unwrap_result` the transaction produced by the `self_unwrap`
helper when the self-transfer fast path fires (`none` when the wrapper lookup
matches neither kind, in which case the Rust code falls through to the main
flow), and `iter`, `approval_probe`, `now` as in
`assemble_transactions_inner`. -/
def construct_advanced_transfer (hub : Nat) (self_check : Bool)
    (sender receiver : Nat) (amount : Nat)
    (options : Option AdvancedTransferOptions) (self_unwrap_result : Option TransferTx)
    (path : PathfindingResult) (resolver : Nat → Option TokenInfo)
    (iter : List Nat) (balance_map : Nat → Option Nat)
    (approval_probe : Option Bool) (now : Nat) :
    Option (Except TransferError (List TransferTx)) :=
  let fast_path : Bool :=
    sender == receiver &&
      (match options with
       | some opts =>
         match opts.from_tokens, opts.to_tokens with
         | some [from_token], some [to_token] => from_token != to_token
         | _, _ => false
       | none => false)
  if fast_path then
    match self_unwrap_result with
    | some tx => some (.ok [tx])
    | none => construct_main hub self_check sender receiver amount options path
        resolver iter balance_map approval_probe now
  else
    construct_main hub self_check sender receiver amount options path
      resolver iter balance_map approval_probe now

/-! ## Specification-side decoders and classifiers

These definitions come from the wording of the specification (they are not
part of the Rust code): unpacking packed coordinates back into `u16` triples,
and classifying call payloads by kind. -/

/-- Decode a byte list as consecutive big-endian `u16` values. -/
def unpack_u16_pairs : List Nat → List Nat
  | b1 :: b2 :: rest => (b1 * 256 + b2) :: unpack_u16_pairs rest
  | _ => []

/-- Group a list into consecutive triples, dropping an incomplete tail. -/
def to_triples : List Nat → List (Nat × Nat × Nat)
  | a :: b :: c :: rest => (a, b, c) :: to_triples rest
  | _ => []

/-- Decode the packed coordinates of a flow matrix: big-endian `u16` triples,
each component looked up in the vertex list. -/
def decode_triples (m : FlowMatrix) : List (Nat × Nat × Nat) :=
  (to_triples (unpack_u16_pairs m.packed_coordinates)).map fun c =>
    (m.flow_vertices.getD c.1 0, m.flow_vertices.getD c.2.1 0, m.flow_vertices.getD c.2.2 0)

/-- A call payload is an unwrap call (of either wrapper kind). -/
def is_unwrap_call : CallData → Bool
  | .unwrapDemCall _ => true
  | .unwrapInfCall _ => true
  | _ => false

/-- A call payload is a re-wrap (`HubV2::wrap`) call. -/
def is_rewrap_call : CallData → Bool
  | .wrapCall _ _ _ => true
  | _ => false

/-- A call payload is an approval (`setApprovalForAll`) call. -/
def is_approval_call : CallData → Bool
  | .approveCall _ _ => true
  | _ => false

/-- A call payload is the settlement (`operateFlowMatrix`) call. -/
def is_settlement_call : CallData → Bool
  | .operateFlowMatrixCall _ _ _ _ => true
  | _ => false

/-! ## Lemmas about the sorted vertex list -/

theorem mem_insert_addr {b a : Nat} {l : List Nat} :
    b ∈ insert_addr a l ↔ b = a ∨ b ∈ l := by
  induction l with
  | nil => simp [insert_addr]
  | cons c rest ih =>
    by_cases h1 : a < c
    · simp [insert_addr, h1]
    · by_cases h2 : a = c
      · subst h2
        have hstep : insert_addr a (a :: rest) = a :: rest := by
          simp [insert_addr, h1]
        rw [hstep, List.mem_cons]
        tauto
      · simp only [insert_addr, if_neg h1, if_neg h2, List.mem_cons, ih]
        tauto

theorem pairwise_insert_addr {a : Nat} {l : List Nat}
    (h : l.Pairwise (· < ·)) : (insert_addr a l).Pairwise (· < ·) := by
  induction l with
  | nil => simp [insert_addr]
  | cons c rest ih =>
    rcases List.pairwise_cons.mp h with ⟨hc, hrest⟩
    by_cases h1 : a < c
    · simp only [insert_addr, if_pos h1]
      refine List.pairwise_cons.mpr ⟨?_, h⟩
      intro x hx
      rcases List.mem_cons.mp hx with rfl | hx
      · exact h1
      · exact lt_trans h1 (hc x hx)
    · by_cases h2 : a = c
      · subst h2
        have hstep : insert_addr a (a :: rest) = a :: rest := by
          simp [insert_addr, h1]
        rw [hstep]
        exact h
      · have hca : c < a := lt_of_le_of_ne (le_of_not_lt h1) (fun h' => h2 h'.symm)
        simp only [insert_addr, if_neg h1, if_neg h2]
        refine List.pairwise_cons.mpr ⟨?_, ih hrest⟩
        intro x hx
        rcases mem_insert_addr.mp hx with rfl | hx
        · exact hca
        · exact hc x hx

theorem sorted_vertices_pairwise (transfers : List TransferStep) (src dst : Nat) :
    (sorted_vertices transfers src dst).Pairwise (· < ·) := by
  unfold sorted_vertices
  generalize collect_addrs transfers src dst = l
  induction l with
  | nil => simp
  | cons a rest ih => exact pairwise_insert_addr ih

theorem mem_sorted_vertices {a : Nat} {transfers : List TransferStep} {src dst : Nat} :
    a ∈ sorted_vertices transfers src dst ↔ a ∈ collect_addrs transfers src dst := by
  unfold sorted_vertices
  generalize collect_addrs transfers src dst = l
  induction l with
  | nil => simp
  | cons b rest ih => simp [mem_insert_addr, ih]

theorem sorted_vertices_nodup (transfers : List TransferStep) (src dst : Nat) :
    (sorted_vertices transfers src dst).Nodup :=
  (sorted_vertices_pairwise transfers src dst).imp ne_of_lt

/-- Two strictly ascending lists with the same members are equal. -/
theorem pairwise_lt_ext : ∀ {l₁ l₂ : List Nat}, l₁.Pairwise (· < ·) →
    l₂.Pairwise (· < ·) → (∀ x, x ∈ l₁ ↔ x ∈ l₂) → l₁ = l₂ := by
  intro l₁
  induction l₁ with
  | nil =>
    intro l₂ _ _ hmem
    cases l₂ with
    | nil => rfl
    | cons b t => exact absurd ((hmem b).mpr (List.mem_cons_self b t)) (by simp)
  | cons a t₁ ih =>
    intro l₂ h₁ h₂ hmem
    cases l₂ with
    | nil => exact absurd ((hmem a).mp (List.mem_cons_self a t₁)) (by simp)
    | cons b t₂ =>
      rcases List.pairwise_cons.mp h₁ with ⟨ha, ht₁⟩
      rcases List.pairwise_cons.mp h₂ with ⟨hb, ht₂⟩
      have hab : a = b := by
        rcases List.mem_cons.mp ((hmem a).mp (List.mem_cons_self a t₁)) with h | h
        · exact h
        · rcases List.mem_cons.mp ((hmem b).mpr (List.mem_cons_self b t₂)) with h' | h'
          · exact h'.symm
          · exact absurd (lt_trans (ha b h') (hb a h)) (lt_irrefl a)
      subst hab
      have htail : ∀ x, x ∈ t₁ ↔ x ∈ t₂ := by
        intro x
        constructor
        · intro hx
          rcases List.mem_cons.mp ((hmem x).mp (List.mem_cons.mpr (Or.inr hx))) with h | h
          · exact absurd (h ▸ ha x hx) (lt_irrefl x)
          · exact h
        · intro hx
          rcases List.mem_cons.mp ((hmem x).mpr (List.mem_cons.mpr (Or.inr hx))) with h | h
          · exact absurd (h ▸ hb x hx) (lt_irrefl x)
          · exact h
      exact congrArg (a :: ·) (ih ht₁ ht₂ htail)

theorem mem_collect_addrs {a : Nat} {transfers : List TransferStep} {src dst : Nat} :
    a ∈ collect_addrs transfers src dst ↔
      a = src ∨ a = dst ∨
        ∃ t ∈ transfers, a = t.from_address ∨ a = t.to_address ∨ a = t.token_owner := by
  unfold collect_addrs
  induction transfers with
  | nil => simp
  | cons t rest ih =>
    simp only [List.foldr_cons, List.mem_cons, List.mem_cons] at ih ⊢
    constructor
    · rintro (rfl | rfl | rfl | rfl | rfl | h)
      · exact Or.inl rfl
      · exact Or.inr (Or.inl rfl)
      · exact Or.inr (Or.inr ⟨t, Or.inl rfl, Or.inl rfl⟩)
      · exact Or.inr (Or.inr ⟨t, Or.inl rfl, Or.inr (Or.inl rfl)⟩)
      · exact Or.inr (Or.inr ⟨t, Or.inl rfl, Or.inr (Or.inr rfl)⟩)
      · rcases ih.mp (Or.inr (Or.inr h)) with h' | h' | ⟨u, hu, h'⟩
        · exact Or.inl h'
        · exact Or.inr (Or.inl h')
        · exact Or.inr (Or.inr ⟨u, Or.inr hu, h'⟩)
    · rintro (rfl | rfl | ⟨u, hu | hu, h'⟩)
      · exact Or.inl rfl
      · exact Or.inr (Or.inl rfl)
      · subst hu
        rcases h' with rfl | rfl | rfl
        · exact Or.inr (Or.inr (Or.inl rfl))
        · exact Or.inr (Or.inr (Or.inr (Or.inl rfl)))
        · exact Or.inr (Or.inr (Or.inr (Or.inr (Or.inl rfl))))
      · rcases ih.mpr (Or.inr (Or.inr ⟨u, hu, h'⟩)) with h'' | h'' | h''
        · exact Or.inl h''
        · exact Or.inr (Or.inl h'')
        · exact Or.inr (Or.inr (Or.inr (Or.inr (Or.inr h''))))

/-! ## Lemmas about `create_flow_matrix` -/

theorem rposition_eq_none (p : α → Bool) (l : List α) (h : ∀ x ∈ l, p x = false) :
    rposition p l = none := by
  induction l with
  | nil => rfl
  | cons x xs ih =>
    have hx := h x (List.mem_cons_self x xs)
    have hxs := ih fun y hy => h y (List.mem_cons.mpr (Or.inr hy))
    simp [rposition, hxs, hx]

theorem mark_edges_length (receiver : Nat) (transfers : List TransferStep) :
    (mark_edges receiver transfers).length = transfers.length := by
  simp [mark_edges]

/-- On a non-empty transfer list, `create_flow_matrix` returns (it does not
panic) and its result is the balance check applied to the
marked-and-promoted edge list. -/
theorem create_flow_matrix_eq (sender receiver : Nat) (value : Nat)
    {transfers : List TransferStep} (h : transfers ≠ []) :
    create_flow_matrix sender receiver value transfers =
      some (finish_matrix sender receiver value transfers
        (ensure_terminal_edges receiver transfers)) := by
  have hlen := mark_edges_length receiver transfers
  have hpos : 0 < transfers.length := List.length_pos.mpr h
  by_cases hany : (mark_edges receiver transfers).any (fun e => e.stream_sink_id == 1) = true
  · unfold create_flow_matrix ensure_terminal_edges
    simp only [hany, if_true]
  · have hany' : (mark_edges receiver transfers).any (fun e => e.stream_sink_id == 1) = false := by
      simpa using hany
    have hforall : ∀ t ∈ transfers, (t.to_address == receiver) = false := by
      intro t ht
      have hmem : (⟨if t.to_address = receiver then 1 else 0, t.value⟩ : FlowEdge) ∈
          mark_edges receiver transfers := by
        unfold mark_edges
        exact List.mem_map_of_mem _ ht
      have hne := (List.any_eq_false.mp hany') _ hmem
      by_cases hto : t.to_address = receiver
      · exact absurd (by simp [hto]) hne
      · simp [hto]
    have hnone : rposition (fun t => t.to_address == receiver) transfers = none :=
      rposition_eq_none _ _ hforall
    have hlt : (mark_edges receiver transfers).length - 1 <
        (mark_edges receiver transfers).length := by omega
    obtain ⟨e, hsome⟩ : ∃ e,
        (mark_edges receiver transfers)[(mark_edges receiver transfers).length - 1]? = some e :=
      ⟨_, List.getElem?_eq_getElem hlt⟩
    unfold create_flow_matrix ensure_terminal_edges
    simp only [hany', Bool.false_eq_true, if_false, hnone, Option.getD_none, hsome]

/-- C1 (claim): on a non-empty transfer list the result of
`create_flow_matrix` is `Ok` exactly when the terminal sum of the
marked-and-promoted edges equals the expected value, and on a mismatch the
result is `Imbalanced` carrying that terminal sum and the expected value. -/
theorem C1_flow_matrix_balance (sender receiver : Nat) (value : Nat)
    (transfers : List TransferStep) (h : transfers ≠ []) :
    ((∃ M, create_flow_matrix sender receiver value transfers = some (.ok M)) ↔
        terminal_sum (ensure_terminal_edges receiver transfers) = value) ∧
      (terminal_sum (ensure_terminal_edges receiver transfers) ≠ value →
        create_flow_matrix sender receiver value transfers =
          some (.error (.Imbalanced
            (terminal_sum (ensure_terminal_edges receiver transfers)) value))) := by
  rw [create_flow_matrix_eq sender receiver value h]
  unfold finish_matrix
  by_cases hts : terminal_sum (ensure_terminal_edges receiver transfers) = value
  · simp [hts]
  · simp [hts]

/-- Witness for C1 at a concrete single-hop input. -/
theorem C1_flow_matrix_balance_witness :
    ([({ from_address := 0, to_address := 1, token_owner := 0, value := 5 } :
        TransferStep)] ≠ []) ∧
      ((∃ M, create_flow_matrix 0 1 5
          [{ from_address := 0, to_address := 1, token_owner := 0, value := 5 }] =
            some (.ok M)) ↔
        terminal_sum (ensure_terminal_edges 1
          [{ from_address := 0, to_address := 1, token_owner := 0, value := 5 }]) = 5) ∧
      (terminal_sum (ensure_terminal_edges 1
          [{ from_address := 0, to_address := 1, token_owner := 0, value := 5 }]) ≠ 5 →
        create_flow_matrix 0 1 5
          [{ from_address := 0, to_address := 1, token_owner := 0, value := 5 }] =
            some (.error (.Imbalanced (terminal_sum (ensure_terminal_edges 1
              [{ from_address := 0, to_address := 1, token_owner := 0, value := 5 }])) 5))) :=
  ⟨by decide,
    (C1_flow_matrix_balance 0 1 5
      [{ from_address := 0, to_address := 1, token_owner := 0, value := 5 }] (by decide)).1,
    (C1_flow_matrix_balance 0 1 5
      [{ from_address := 0, to_address := 1, token_owner := 0, value := 5 }] (by decide)).2⟩

/-- C10 (claim): on the empty transfer list `create_flow_matrix` panics (the
terminal-promotion step underflows `flow_edges.len() - 1` and indexes out of
bounds), so it never returns; `none` is the panic of the embedding. -/
theorem C10_empty_path_panics (sender receiver : Nat) (value : Nat) :
    create_flow_matrix sender receiver value [] = none := rfl

/-- C2 (amended): `create_flow_matrix` performs no vertex-capacity check; on
any non-empty transfer list it either returns a matrix or fails with
`Imbalanced` — there is no capacity failure mode (and the error enum has no
such variant). -/
theorem C2_no_capacity_failure (sender receiver : Nat) (value : Nat)
    (transfers : List TransferStep) (h : transfers ≠ []) :
    (∃ M, create_flow_matrix sender receiver value transfers = some (.ok M)) ∨
      create_flow_matrix sender receiver value transfers =
        some (.error (.Imbalanced
          (terminal_sum (ensure_terminal_edges receiver transfers)) value)) := by
  rw [create_flow_matrix_eq sender receiver value h]
  unfold finish_matrix
  by_cases hts : terminal_sum (ensure_terminal_edges receiver transfers) = value
  · exact Or.inl ⟨_, by rw [if_pos hts]⟩
  · exact Or.inr (by rw [if_neg hts])

/-- Witness for the amended C2 at a concrete single-hop input. -/
theorem C2_no_capacity_failure_witness :
    ([({ from_address := 2, to_address := 3, token_owner := 2, value := 9 } :
        TransferStep)] ≠ []) ∧
      ((∃ M, create_flow_matrix 2 3 9
          [{ from_address := 2, to_address := 3, token_owner := 2, value := 9 }] =
            some (.ok M)) ∨
        create_flow_matrix 2 3 9
          [{ from_address := 2, to_address := 3, token_owner := 2, value := 9 }] =
            some (.error (.Imbalanced (terminal_sum (ensure_terminal_edges 3
              [{ from_address := 2, to_address := 3, token_owner := 2, value := 9 }])) 9))) :=
  ⟨by decide,
    C2_no_capacity_failure 2 3 9
      [{ from_address := 2, to_address := 3, token_owner := 2, value := 9 }] (by decide)⟩

/-! ## Packing and decoding lemmas -/

theorem unpack_pack (coords : List Nat) :
    unpack_u16_pairs (pack_coordinates coords) = coords := by
  induction coords with
  | nil => rfl
  | cons c rest ih =>
    show unpack_u16_pairs (c / 256 :: c % 256 :: pack_coordinates rest) = c :: rest
    unfold unpack_u16_pairs
    rw [ih]
    have hc : c / 256 * 256 + c % 256 = c := by omega
    rw [hc]

theorem pack_coordinates_length (coords : List Nat) :
    (pack_coordinates coords).length = 2 * coords.length := by
  induction coords with
  | nil => rfl
  | cons c rest ih =>
    show (c / 256 :: c % 256 :: pack_coordinates rest).length = 2 * (c :: rest).length
    simp [ih]
    omega

theorem triple_coords_length (transfers : List TransferStep) (idx : Nat → Nat) :
    (triple_coords transfers idx).length = 3 * transfers.length := by
  induction transfers with
  | nil => rfl
  | cons t rest ih =>
    show (_ :: _ :: _ :: triple_coords rest idx).length = 3 * (t :: rest).length
    simp [ih]
    omega

theorem to_triples_triple_coords (transfers : List TransferStep) (idx : Nat → Nat) :
    to_triples (triple_coords transfers idx) =
      transfers.map fun t =>
        (idx t.token_owner % 2 ^ 16, idx t.from_address % 2 ^ 16, idx t.to_address % 2 ^ 16) := by
  induction transfers with
  | nil => rfl
  | cons t rest ih =>
    show to_triples (_ :: _ :: _ :: triple_coords rest idx) = _
    unfold to_triples
    rw [ih]
    rfl

theorem getD_indexOf {l : List Nat} {a : Nat} (hmem : a ∈ l) :
    l.getD (l.indexOf a) 0 = a := by
  have hlt := List.indexOf_lt_length.mpr hmem
  rw [List.getD_eq_getElem?_getD, List.getElem?_eq_getElem hlt, Option.getD_some]
  exact List.getElem_indexOf hlt

/-- Every `Ok` result of `create_flow_matrix` has the sorted vertex list as
its vertices and the packed index triples as its packed coordinates. -/
theorem create_flow_matrix_ok_shape {sender receiver : Nat} {value : Nat}
    {transfers : List TransferStep} {M : FlowMatrix}
    (hok : create_flow_matrix sender receiver value transfers = some (.ok M)) :
    M.flow_vertices = sorted_vertices transfers sender receiver ∧
      M.packed_coordinates = pack_coordinates (triple_coords transfers
        (fun a => (sorted_vertices transfers sender receiver).indexOf a)) := by
  rcases eq_or_ne transfers [] with rfl | hne
  · exact absurd (C10_empty_path_panics sender receiver value ▸ hok) (by simp)
  · rw [create_flow_matrix_eq sender receiver value hne] at hok
    unfold finish_matrix at hok
    by_cases hts : terminal_sum (ensure_terminal_edges receiver transfers) = value
    · rw [if_pos hts] at hok
      have hM : build_matrix sender receiver transfers
          (ensure_terminal_edges receiver transfers) = M := by
        have := Option.some.inj hok
        exact Except.ok.inj this
      subst hM
      constructor <;> simp [build_matrix, transform_to_flow_vertices]
    · rw [if_neg hts] at hok
      exact absurd (Option.some.inj hok) (by simp)

/-! ## An oversized input: 65537 distinct vertices

The transfer list below references 65537 distinct addresses (`0`, `1` and one
extra token owner per step), which exceeds the `u16` vertex capacity, yet all
its hops end at the receiver and carry amount `0`, so the balance check
passes. -/

/-- Step `i` of the oversized path: from `0` to `1`, token owner `i + 2`,
amount `0`. -/
def wide_step (i : Nat) : TransferStep :=
  { from_address := 0, to_address := 1, token_owner := i + 2, value := 0 }

/-- The oversized path: 65535 steps, hence `65535 + 2 = 65537` distinct
addresses. -/
def wide_transfers : List TransferStep := (List.range 65535).map wide_step

theorem wide_transfers_ne_nil : wide_transfers ≠ [] := by
  unfold wide_transfers
  simp [List.range_eq_nil]

theorem mem_collect_wide {a : Nat} :
    a ∈ collect_addrs wide_transfers 0 1 ↔ a < 65537 := by
  rw [mem_collect_addrs]
  unfold wide_transfers
  simp only [List.mem_map, List.mem_range]
  constructor
  · rintro (rfl | rfl | ⟨t, ⟨i, hi, rfl⟩, h⟩)
    · omega
    · omega
    · rcases h with rfl | rfl | rfl
      · show (wide_step i).from_address < 65537
        simp only [wide_step]
        omega
      · show (wide_step i).to_address < 65537
        simp only [wide_step]
        omega
      · show (wide_step i).token_owner < 65537
        simp only [wide_step]
        omega
  · intro ha
    rcases Nat.lt_or_ge a 2 with h2 | h2
    · interval_cases a
      · exact Or.inl rfl
      · exact Or.inr (Or.inl rfl)
    · refine Or.inr (Or.inr ⟨wide_step (a - 2), ⟨a - 2, by omega, rfl⟩,
        Or.inr (Or.inr ?_)⟩)
      show a = (wide_step (a - 2)).token_owner
      simp only [wide_step]
      omega

theorem sorted_vertices_wide : sorted_vertices wide_transfers 0 1 = List.range 65537 := by
  refine pairwise_lt_ext (sorted_vertices_pairwise wide_transfers 0 1)
    (List.pairwise_lt_range 65537) fun x => ?_
  rw [mem_sorted_vertices, mem_collect_wide, List.mem_range]

theorem indexOf_range' : ∀ (n s i : Nat), s ≤ i → i < s + n →
    (List.range' s n).indexOf i = i - s := by
  intro n
  induction n with
  | zero => omega
  | succ m ih =>
    intro s i hs hi
    rw [List.range'_succ]
    rcases eq_or_ne s i with rfl | hne
    · simp [List.indexOf_cons]
    · have : (s == i) = false := by simpa using hne
      rw [List.indexOf_cons, this]
      simp only [cond_false]
      rw [ih (s + 1) i (by omega) (by omega)]
      omega

theorem indexOf_range {n i : Nat} (h : i < n) : (List.range n).indexOf i = i := by
  rw [List.range_eq_range']
  have := indexOf_range' n 0 i (Nat.zero_le i) (by omega)
  simpa using this

theorem getD_range {n i : Nat} (h : i < n) : (List.range n).getD i 0 = i := by
  rw [List.getD_eq_getElem?_getD, List.getElem?_range h, Option.getD_some]

/-- The oversized path has a terminal edge already (every hop ends at the
receiver), so no promotion happens. -/
theorem wide_any : (mark_edges 1 wide_transfers).any (fun e => e.stream_sink_id == 1) = true := by
  unfold mark_edges wide_transfers
  rw [List.map_map, List.any_eq_true]
  exact ⟨_, List.mem_map_of_mem _ (List.mem_range.mpr (show 0 < 65535 by omega)), rfl⟩

theorem ensure_terminal_wide :
    ensure_terminal_edges 1 wide_transfers = mark_edges 1 wide_transfers := by
  simp only [ensure_terminal_edges, wide_any, if_true]

theorem wide_amounts : ∀ e ∈ mark_edges 1 wide_transfers, e.amount = 0 := by
  intro e he
  unfold mark_edges wide_transfers at he
  rw [List.map_map] at he
  rcases List.mem_map.mp he with ⟨i, _, rfl⟩
  rfl

/-- A list of edges whose amounts are all zero has terminal sum zero. -/
theorem terminal_sum_eq_zero (edges : List FlowEdge) (h : ∀ e ∈ edges, e.amount = 0) :
    terminal_sum edges = 0 := by
  unfold terminal_sum
  have h0 : ((edges.filter fun e => e.stream_sink_id == 1).map fun e => e.amount).sum = 0 := by
    apply List.sum_eq_zero
    intro x hx
    rcases List.mem_map.mp hx with ⟨e, he, rfl⟩
    exact h e (List.mem_filter.mp he).1
  rw [h0]
  exact Nat.zero_mod _

/-- When the terminal sum matches, `finish_matrix` succeeds. -/
theorem finish_matrix_ok {sender receiver value : Nat} {transfers : List TransferStep}
    {edges : List FlowEdge} (h : terminal_sum edges = value) :
    finish_matrix sender receiver value transfers edges =
      .ok (build_matrix sender receiver transfers edges) := by
  unfold finish_matrix
  rw [if_pos h]

/-- The first component of `transform_to_flow_vertices` is the sorted vertex
list. -/
theorem transform_fst (transfers : List TransferStep) (src dst : Nat) :
    (transform_to_flow_vertices transfers src dst).1 = sorted_vertices transfers src dst := rfl

/-- The oversized path passes the balance check with expected value `0`, so
`create_flow_matrix` accepts it. -/
theorem wide_terminal_sum :
    terminal_sum (ensure_terminal_edges 1 wide_transfers) = 0 := by
  rw [ensure_terminal_wide]
  exact terminal_sum_eq_zero _ wide_amounts

/-- C2 (counterexample): the oversized path has more than 65535 distinct
vertices, yet `create_flow_matrix` returns a matrix instead of failing. -/
theorem C2_capacity_counterexample :
    (transform_to_flow_vertices wide_transfers 0 1).1.length > 65535 ∧
      ∃ M, create_flow_matrix 0 1 0 wide_transfers = some (.ok M) := by
  constructor
  · rw [transform_fst, sorted_vertices_wide, List.length_range]
    omega
  · refine ⟨build_matrix 0 1 wide_transfers (ensure_terminal_edges 1 wide_transfers), ?_⟩
    rw [create_flow_matrix_eq 0 1 0 wide_transfers_ne_nil, finish_matrix_ok wide_terminal_sum]

/-! ## C7: the packing round-trip -/

theorem build_matrix_vertices (sender receiver : Nat) (transfers : List TransferStep)
    (edges : List FlowEdge) :
    (build_matrix sender receiver transfers edges).flow_vertices =
      sorted_vertices transfers sender receiver := rfl

theorem build_matrix_packed (sender receiver : Nat) (transfers : List TransferStep)
    (edges : List FlowEdge) :
    (build_matrix sender receiver transfers edges).packed_coordinates =
      pack_coordinates (triple_coords transfers
        (fun a => (sorted_vertices transfers sender receiver).indexOf a)) := rfl

/-- Decoding the packed coordinates of a built matrix: per transfer, each of
the three (possibly `u16`-wrapped) indices is looked up in the sorted vertex
list. -/
theorem decode_triples_build (sender receiver : Nat) (transfers : List TransferStep)
    (edges : List FlowEdge) :
    decode_triples (build_matrix sender receiver transfers edges) =
      transfers.map fun t =>
        ((sorted_vertices transfers sender receiver).getD
          ((sorted_vertices transfers sender receiver).indexOf t.token_owner % 2 ^ 16) 0,
         (sorted_vertices transfers sender receiver).getD
          ((sorted_vertices transfers sender receiver).indexOf t.from_address % 2 ^ 16) 0,
         (sorted_vertices transfers sender receiver).getD
          ((sorted_vertices transfers sender receiver).indexOf t.to_address % 2 ^ 16) 0) := by
  unfold decode_triples
  rw [build_matrix_packed, build_matrix_vertices, unpack_pack, to_triples_triple_coords,
    List.map_map]
  rfl

/-- C7 (amended): for a non-empty path whose distinct-vertex count is at most
65536 (so every index fits in a `u16`), an `Ok` flow matrix packs exactly
`6 * |path|` coordinate bytes and decoding them through the vertex list
reproduces `(token_owner, from, to)` of every step in order. -/
theorem C7_pack_roundtrip (sender receiver value : Nat) (transfers : List TransferStep)
    (M : FlowMatrix) (h : transfers ≠ [])
    (hcap : (transform_to_flow_vertices transfers sender receiver).1.length ≤ 65536)
    (hok : create_flow_matrix sender receiver value transfers = some (.ok M)) :
    M.packed_coordinates.length = 6 * transfers.length ∧
      decode_triples M =
        transfers.map fun t => (t.token_owner, t.from_address, t.to_address) := by
  have hM : M = build_matrix sender receiver transfers
      (ensure_terminal_edges receiver transfers) := by
    rw [create_flow_matrix_eq sender receiver value h] at hok
    unfold finish_matrix at hok
    by_cases hts : terminal_sum (ensure_terminal_edges receiver transfers) = value
    · rw [if_pos hts] at hok
      exact (Except.ok.inj (Option.some.inj hok)).symm
    · rw [if_neg hts] at hok
      exact absurd (Option.some.inj hok) (by simp)
  rw [transform_fst] at hcap
  subst hM
  constructor
  · rw [build_matrix_packed, pack_coordinates_length, triple_coords_length]
    omega
  · rw [decode_triples_build]
    apply List.map_congr_left
    intro t ht
    have key : ∀ a : Nat, a ∈ collect_addrs transfers sender receiver →
        (sorted_vertices transfers sender receiver).getD
          ((sorted_vertices transfers sender receiver).indexOf a % 2 ^ 16) 0 = a := by
      intro a ha
      have hmem' : a ∈ sorted_vertices transfers sender receiver := mem_sorted_vertices.mpr ha
      have hlt := List.indexOf_lt_length.mpr hmem'
      have hsmall : (sorted_vertices transfers sender receiver).indexOf a < 2 ^ 16 := by omega
      rw [Nat.mod_eq_of_lt hsmall]
      exact getD_indexOf hmem'
    rw [key t.token_owner (mem_collect_addrs.mpr (Or.inr (Or.inr ⟨t, ht, Or.inr (Or.inr rfl)⟩))),
      key t.from_address (mem_collect_addrs.mpr (Or.inr (Or.inr ⟨t, ht, Or.inl rfl⟩))),
      key t.to_address (mem_collect_addrs.mpr (Or.inr (Or.inr ⟨t, ht, Or.inr (Or.inl rfl)⟩)))]

/-- Two lists differing at one position differ. -/
theorem ne_of_getElem?_ne {l₁ l₂ : List α} (i : Nat) (h : l₁[i]? ≠ l₂[i]?) : l₁ ≠ l₂ :=
  fun he => h (he ▸ rfl)

/-- C7 (counterexample): on the oversized 65537-vertex path the builder
returns a matrix whose packed coordinates wrap modulo `2^16`, so decoding does
not reproduce the steps. -/
theorem C7_pack_roundtrip_counterexample :
    ∃ M, create_flow_matrix 0 1 0 wide_transfers = some (.ok M) ∧
      decode_triples M ≠
        wide_transfers.map fun t => (t.token_owner, t.from_address, t.to_address) := by
  refine ⟨build_matrix 0 1 wide_transfers (ensure_terminal_edges 1 wide_transfers), ?_, ?_⟩
  · rw [create_flow_matrix_eq 0 1 0 wide_transfers_ne_nil, finish_matrix_ok wide_terminal_sum]
  · rw [decode_triples_build, sorted_vertices_wide]
    apply ne_of_getElem?_ne 65534
    have hidx : ∀ i : Nat, i < 65537 →
        (List.range 65537).getD ((List.range 65537).indexOf i % 2 ^ 16) 0 = i % 65536 := by
      intro i hi
      rw [indexOf_range hi]
      rcases Nat.lt_or_ge i 65536 with h | h
      · rw [Nat.mod_eq_of_lt (show i < 2 ^ 16 by omega), getD_range hi, Nat.mod_eq_of_lt h]
      · have hi' : i = 65536 := by omega
        subst hi'
        rw [show (65536 : Nat) % 2 ^ 16 = 0 by decide, getD_range (show 0 < 65537 by omega)]
    have hwide : ∀ (f : TransferStep → Nat × Nat × Nat),
        (wide_transfers.map f)[65534]? = some (f (wide_step 65534)) := by
      intro f
      unfold wide_transfers
      rw [List.map_map, List.getElem?_map, List.getElem?_range (show 65534 < 65535 by omega)]
      rfl
    rw [hwide, hwide]
    intro heq
    have := Option.some.inj heq
    have htok := congrArg Prod.fst this
    rw [hidx (wide_step 65534).token_owner (by show 65534 + 2 < 65537; omega)] at htok
    have h1 : (wide_step 65534).token_owner % 65536 = 0 := by decide
    rw [h1] at htok
    have h2 : (wide_step 65534).token_owner = 65536 := rfl
    rw [h2] at htok
    exact absurd htok (by decide)

/-- Witness for the amended C7 at a concrete single-hop input. -/
theorem C7_pack_roundtrip_witness :
    ([({ from_address := 0, to_address := 1, token_owner := 0, value := 7 } :
        TransferStep)] ≠ []) ∧
      (transform_to_flow_vertices
        [{ from_address := 0, to_address := 1, token_owner := 0, value := 7 }] 0 1).1.length ≤
          65536 ∧
      create_flow_matrix 0 1 7
        [{ from_address := 0, to_address := 1, token_owner := 0, value := 7 }] =
          some (.ok { flow_vertices := [0, 1]
                      flow_edges := [{ stream_sink_id := 1, amount := 7 }]
                      streams := [{ source_coordinate := 0, flow_edge_ids := [0], data := [] }]
                      packed_coordinates := [0, 0, 0, 0, 0, 1]
                      source_coordinate := 0 }) ∧
      ({ flow_vertices := [0, 1]
         flow_edges := [{ stream_sink_id := 1, amount := 7 }]
         streams := [{ source_coordinate := 0, flow_edge_ids := [0], data := [] }]
         packed_coordinates := [0, 0, 0, 0, 0, 1]
         source_coordinate := 0 } : FlowMatrix).packed_coordinates.length =
          6 * [({ from_address := 0, to_address := 1, token_owner := 0, value := 7 } :
            TransferStep)].length ∧
      decode_triples
        { flow_vertices := [0, 1]
          flow_edges := [{ stream_sink_id := 1, amount := 7 }]
          streams := [{ source_coordinate := 0, flow_edge_ids := [0], data := [] }]
          packed_coordinates := [0, 0, 0, 0, 0, 1]
          source_coordinate := 0 } =
        [({ from_address := 0, to_address := 1, token_owner := 0, value := 7 } :
          TransferStep)].map fun t => (t.token_owner, t.from_address, t.to_address) :=
  ⟨by decide, by decide, by decide,
    (C7_pack_roundtrip 0 1 7
      [{ from_address := 0, to_address := 1, token_owner := 0, value := 7 }] _
      (by decide) (by decide) (by decide)).1,
    (C7_pack_roundtrip 0 1 7
      [{ from_address := 0, to_address := 1, token_owner := 0, value := 7 }] _
      (by decide) (by decide) (by decide)).2⟩

/-! ## C9: the day index and the negative-day identity -/

/-- C9 (counterexample): at `t = 1602719999` (one second before day zero) the
code computes day `0` — `i64` division truncates toward zero — while the
signed floor is `-1`. -/
theorem C9_day_floor_counterexample :
    day_from_timestamp 1602719999 = 0 ∧
      Int.fdiv (((1602719999 : Nat) : Int) - ((INFLATION_DAY_ZERO_UNIX : Nat) : Int))
        ((SECONDS_PER_DAY : Nat) : Int) = -1 ∧
      (0 : Int) ≠ -1 := by
  refine ⟨by decide, by decide, by decide⟩

/-- A nonpositive dividend and nonnegative divisor give a nonpositive
truncating quotient. -/
theorem tdiv_nonpos_of_nonpos {a b : Int} (ha : a ≤ 0) (hb : 0 ≤ b) : Int.tdiv a b ≤ 0 := by
  have h1 : a = -(-a) := by omega
  rw [h1, Int.neg_tdiv]
  have h2 : 0 ≤ (-a).tdiv b := Int.tdiv_nonneg (by omega) hb
  omega

/-- C9 (amended): `day_from_timestamp` divides truncating toward zero, which
agrees with the signed floor whenever `t` is at or after the epoch (and below
the `i64` wrap at `2^63`); and both conversions return their input unchanged
for every `t` before the epoch — whether the truncated day is negative (the
explicit identity branch) or zero (multiplication by `BETA^0 = GAMMA^0 =
ONE_36`). -/
theorem C9_day_trunc_negative_identity (t x now : Nat) :
    (INFLATION_DAY_ZERO_UNIX ≤ t → t < 2 ^ 63 →
      day_from_timestamp t =
        Int.fdiv ((t : Int) - ((INFLATION_DAY_ZERO_UNIX : Nat) : Int))
          ((SECONDS_PER_DAY : Nat) : Int)) ∧
    (t < INFLATION_DAY_ZERO_UNIX →
      atto_circles_to_atto_static_circles x (some t) now = x ∧
      atto_static_circles_to_atto_circles x (some t) now = x) := by
  constructor
  · intro hle hlt
    unfold day_from_timestamp
    rw [if_pos hlt]
    have hnum : (0 : Int) ≤ (t : Int) - ((INFLATION_DAY_ZERO_UNIX : Nat) : Int) := by
      have : (INFLATION_DAY_ZERO_UNIX : Int) ≤ (t : Int) := by exact_mod_cast hle
      omega
    rw [Int.fdiv_eq_tdiv hnum (by decide)]
  · intro hlt
    have hlt63 : t < 2 ^ 63 := by
      have : INFLATION_DAY_ZERO_UNIX < 2 ^ 63 := by decide
      omega
    have hday : day_from_timestamp t ≤ 0 := by
      unfold day_from_timestamp
      rw [if_pos hlt63]
      apply tdiv_nonpos_of_nonpos _ (by decide)
      have : (t : Int) < (INFLATION_DAY_ZERO_UNIX : Int) := by exact_mod_cast hlt
      omega
    constructor
    · unfold atto_circles_to_atto_static_circles
      simp only [Option.getD_some]
      rcases lt_or_eq_of_le hday with hneg | hzero
      · rw [if_pos hneg]
      · rw [if_neg (by omega), hzero]
        show x * pow36 beta_36 (0 : Int).toNat / one_36 = x
        show x * one_36 / one_36 = x
        exact Nat.mul_div_cancel x (by decide)
    · unfold atto_static_circles_to_atto_circles
      simp only [Option.getD_some]
      rcases lt_or_eq_of_le hday with hneg | hzero
      · rw [if_pos hneg]
      · rw [if_neg (by omega), hzero]
        show x * pow36 gamma_36 (0 : Int).toNat / one_36 = x
        show x * one_36 / one_36 = x
        exact Nat.mul_div_cancel x (by decide)

/-- Witness for the amended C9 at concrete timestamps on both sides of the
epoch. -/
theorem C9_day_trunc_negative_identity_witness :
    (INFLATION_DAY_ZERO_UNIX ≤ 1602806400 ∧ (1602806400 : Nat) < 2 ^ 63 ∧
      day_from_timestamp 1602806400 =
        Int.fdiv (((1602806400 : Nat) : Int) - ((INFLATION_DAY_ZERO_UNIX : Nat) : Int))
          ((SECONDS_PER_DAY : Nat) : Int)) ∧
    ((1602719999 : Nat) < INFLATION_DAY_ZERO_UNIX ∧
      atto_circles_to_atto_static_circles 5 (some 1602719999) 0 = 5 ∧
      atto_static_circles_to_atto_circles 5 (some 1602719999) 0 = 5) :=
  ⟨⟨by decide, by decide,
      (C9_day_trunc_negative_identity 1602806400 5 0).1 (by decide) (by decide)⟩,
    ⟨by decide,
      ((C9_day_trunc_negative_identity 1602719999 5 0).2 (by decide)).1,
      ((C9_day_trunc_negative_identity 1602719999 5 0).2 (by decide)).2⟩⟩

/-! ## C5: remote amounts beyond 192 bits -/

/-- C5 (amended): the builder never rejects an oversized amount — there is no
out-of-domain error anywhere in the error enum — instead `u256_to_u192_local`
saturates each step value to `2^192 - 1` on the way into the flow-matrix
builder, preserving the step count, the endpoints and the order. -/
theorem C5_saturating_narrowing (path_unwrapped : PathfindingResult) :
    ((steps_for_matrix path_unwrapped).map fun s => s.value) =
      (path_unwrapped.transfers.map fun t => min t.value (2 ^ 192 - 1)) ∧
    ((steps_for_matrix path_unwrapped).map fun s =>
        (s.from_address, s.to_address, s.token_owner)) =
      (path_unwrapped.transfers.map fun t =>
        (t.from_address, t.to_address, t.token_owner)) := by
  unfold steps_for_matrix
  constructor
  · rw [List.map_map]
    apply List.map_congr_left
    intro t ht
    show u256_to_u192_local t.value = min t.value (2 ^ 192 - 1)
    unfold u256_to_u192_local
    by_cases h : t.value < 2 ^ 192
    · rw [if_pos h]
      omega
    · rw [if_neg h]
      omega
  · rw [List.map_map]
    apply List.map_congr_left
    intro t ht
    rfl

/-- C5 (counterexample): a pathfinder entry with amount `2^200` (exceeding 192
bits) is not rejected; the whole assembly succeeds and the settlement call
carries the saturated edge amount `2^192 - 1` instead of the remote value. -/
theorem C5_saturating_counterexample :
    assemble_transactions_inner 99 true 0 1
      { max_flow := 2 ^ 200,
        transfers := [{ from_address := 0, to_address := 1, token_owner := 2,
                        value := 2 ^ 200 }] }
      (fun _ => none) (fun _ => none) [] (fun _ => none) default_options true (some false) 0 =
        some (.ok [{ to_address := 99,
                     data := .operateFlowMatrixCall [0, 1, 2] [(1, 2 ^ 192 - 1)] [(0, [0], [])]
                       [0, 2, 0, 0, 0, 1],
                     value := 0 }]) ∧
      (2 ^ 192 - 1 : Nat) ≠ 2 ^ 200 := by
  refine ⟨by decide, by decide⟩

/-! ## C8: quantization, `NoPath` and `InsufficientFlow` -/

/-- An error returned by the embedded `assemble_transactions_inner` is always
the `Generic` flow-matrix error — never `NoPathFound` or
`InsufficientBalance`. -/
theorem assemble_error_is_generic {hub : Nat} {self_check : Bool} {sender receiver : Nat}
    {path : PathfindingResult} {token_info_map : Nat → Option TokenInfo}
    {wrapped_totals : Nat → Option (Nat × String)} {iter : List Nat}
    {balance_map : Nat → Option Nat} {opts : AdvancedTransferOptions}
    {check_approval : Bool} {approval_probe : Option Bool} {now : Nat} {e : TransferError}
    (h : assemble_transactions_inner hub self_check sender receiver path token_info_map
      wrapped_totals iter balance_map opts check_approval approval_probe now =
        some (.error e)) :
    e = .Generic .FlowMatrix := by
  simp only [assemble_transactions_inner] at h
  rcases hm : create_flow_matrix sender receiver (u256_to_u192_local path.max_flow)
      (steps_for_matrix (replace_wrapped_tokens path
        (expected_unwrapped_totals wrapped_totals token_info_map now))) with _ | r
  · simp only [hm] at h
    exact Option.noConfusion h
  · rcases r with e' | fm
    · simp only [hm] at h
      exact (Except.error.inj (Option.some.inj h)).symm
    · simp only [hm] at h
      exact Except.noConfusion (Option.some.inj h)

/-- C8 (amended): for a non-self transfer, the quantized target flow is the
amount truncated to a multiple of `10^12`; the build fails with `NoPath`
exactly when the fetched transfer list is empty, and with `InsufficientFlow`
(carrying the quantized target and the reported `max_flow`) exactly when the
list is non-empty and `max_flow` is below the target. -/
theorem C8_quantize_and_flow_errors (hub : Nat) (self_check : Bool) (sender receiver : Nat)
    (amount : Nat) (options : Option AdvancedTransferOptions)
    (self_unwrap_result : Option TransferTx) (path : PathfindingResult)
    (resolver : Nat → Option TokenInfo) (iter : List Nat) (balance_map : Nat → Option Nat)
    (approval_probe : Option Bool) (now : Nat) (hne : sender ≠ receiver) :
    truncate_to_six_decimals amount = amount / 10 ^ 12 * 10 ^ 12 ∧
    (construct_advanced_transfer hub self_check sender receiver amount options
        self_unwrap_result path resolver iter balance_map approval_probe now =
          some (.error (.NoPathFound sender receiver)) ↔ path.transfers = []) ∧
    (construct_advanced_transfer hub self_check sender receiver amount options
        self_unwrap_result path resolver iter balance_map approval_probe now =
          some (.error (.InsufficientBalance (truncate_to_six_decimals amount)
            path.max_flow sender receiver)) ↔
      path.transfers ≠ [] ∧ path.max_flow < truncate_to_six_decimals amount) := by
  have hfast : construct_advanced_transfer hub self_check sender receiver amount options
      self_unwrap_result path resolver iter balance_map approval_probe now =
        construct_main hub self_check sender receiver amount options path resolver iter
          balance_map approval_probe now := by
    unfold construct_advanced_transfer
    have hb : (sender == receiver) = false := by simpa using hne
    rw [hb]
    simp
  rw [hfast]
  refine ⟨?_, ?_⟩
  · unfold truncate_to_six_decimals
    norm_num
  · unfold construct_main
    by_cases hempty : path.transfers.isEmpty
    · rw [if_pos hempty]
      have he : path.transfers = [] := List.isEmpty_iff.mp hempty
      constructor
      · simp [he]
      · constructor
        · intro h
          exact absurd (Option.some.inj h) (by simp)
        · intro ⟨h1, _⟩
          exact absurd he h1
    · rw [if_neg hempty]
      have he : path.transfers ≠ [] := fun h => hempty (List.isEmpty_iff.mpr h)
      by_cases hflow : path.max_flow < truncate_to_six_decimals amount
      · rw [if_pos hflow]
        constructor
        · constructor
          · intro h
            exact absurd (Option.some.inj h) (by simp)
          · intro h
            exact absurd h he
        · simp [he, hflow]
      · rw [if_neg hflow]
        have hnone : ∀ e : TransferError,
            (e = .NoPathFound sender receiver → False) →
            (e = .InsufficientBalance (truncate_to_six_decimals amount)
              path.max_flow sender receiver → False) → True := fun _ _ _ => trivial
        constructor
        · constructor
          · intro h
            by_cases hw : (path.transfers.any fun t =>
                ((wrapped_totals_from_path path
                  (token_info_map_from_path sender resolver path)) t.token_owner).isSome) &&
                ((options.getD default_options).use_wrapped_balances.getD false == false)
            · rw [if_pos hw] at h
              exact absurd (Option.some.inj h) (by simp)
            · rw [if_neg hw] at h
              exact absurd (assemble_error_is_generic h) (by simp)
          · intro h
            exact absurd h he
        · constructor
          · intro h
            by_cases hw : (path.transfers.any fun t =>
                ((wrapped_totals_from_path path
                  (token_info_map_from_path sender resolver path)) t.token_owner).isSome) &&
                ((options.getD default_options).use_wrapped_balances.getD false == false)
            · rw [if_pos hw] at h
              exact absurd (Option.some.inj h) (by simp)
            · rw [if_neg hw] at h
              exact absurd (assemble_error_is_generic h) (by simp)
          · intro ⟨_, h2⟩
            exact absurd h2 hflow

/-- Witness for the amended C8 at a concrete non-self transfer that
succeeds. -/
theorem C8_quantize_and_flow_errors_witness :
    ((0 : Nat) ≠ 1) ∧
    truncate_to_six_decimals (5 * 10 ^ 12) = 5 * 10 ^ 12 / 10 ^ 12 * 10 ^ 12 ∧
    (construct_advanced_transfer 99 true 0 1 (5 * 10 ^ 12) none none
        { max_flow := 10 ^ 13,
          transfers := [{ from_address := 0, to_address := 1, token_owner := 0,
                          value := 10 ^ 13 }] }
        (fun _ => none) [] (fun _ => none) (some false) 0 =
          some (.error (.NoPathFound 0 1)) ↔
      ({ max_flow := 10 ^ 13,
         transfers := [{ from_address := 0, to_address := 1, token_owner := 0,
                         value := 10 ^ 13 }] } : PathfindingResult).transfers = []) ∧
    (construct_advanced_transfer 99 true 0 1 (5 * 10 ^ 12) none none
        { max_flow := 10 ^ 13,
          transfers := [{ from_address := 0, to_address := 1, token_owner := 0,
                          value := 10 ^ 13 }] }
        (fun _ => none) [] (fun _ => none) (some false) 0 =
          some (.error (.InsufficientBalance (truncate_to_six_decimals (5 * 10 ^ 12))
            ({ max_flow := 10 ^ 13,
               transfers := [{ from_address := 0, to_address := 1, token_owner := 0,
                               value := 10 ^ 13 }] } : PathfindingResult).max_flow 0 1)) ↔
      ({ max_flow := 10 ^ 13,
         transfers := [{ from_address := 0, to_address := 1, token_owner := 0,
                         value := 10 ^ 13 }] } : PathfindingResult).transfers ≠ [] ∧
        ({ max_flow := 10 ^ 13,
           transfers := [{ from_address := 0, to_address := 1, token_owner := 0,
                           value := 10 ^ 13 }] } : PathfindingResult).max_flow <
          truncate_to_six_decimals (5 * 10 ^ 12)) :=
  ⟨by decide,
    (C8_quantize_and_flow_errors 99 true 0 1 (5 * 10 ^ 12) none none
      { max_flow := 10 ^ 13,
        transfers := [{ from_address := 0, to_address := 1, token_owner := 0,
                        value := 10 ^ 13 }] }
      (fun _ => none) [] (fun _ => none) (some false) 0 (by decide)).1,
    (C8_quantize_and_flow_errors 99 true 0 1 (5 * 10 ^ 12) none none
      { max_flow := 10 ^ 13,
        transfers := [{ from_address := 0, to_address := 1, token_owner := 0,
                        value := 10 ^ 13 }] }
      (fun _ => none) [] (fun _ => none) (some false) 0 (by decide)).2.1,
    (C8_quantize_and_flow_errors 99 true 0 1 (5 * 10 ^ 12) none none
      { max_flow := 10 ^ 13,
        transfers := [{ from_address := 0, to_address := 1, token_owner := 0,
                        value := 10 ^ 13 }] }
      (fun _ => none) [] (fun _ => none) (some false) 0 (by decide)).2.2⟩

/-- C8 (counterexample): with an empty transfer list and `max_flow = 0` below
the quantized target, the build fails with `NoPath`, not with
`InsufficientFlow` — the insufficient-flow failure is not equivalent to
`max_flow < target_flow` alone. -/
theorem C8_insufficient_counterexample :
    construct_advanced_transfer 99 true 0 1 (10 ^ 12) none none
        { max_flow := 0, transfers := [] } (fun _ => none) [] (fun _ => none) (some false) 0 =
      some (.error (.NoPathFound 0 1)) ∧
    ({ max_flow := 0, transfers := [] } : PathfindingResult).max_flow <
      truncate_to_six_decimals (10 ^ 12) ∧
    (some (Except.error (TransferError.NoPathFound 0 1)) :
        Option (Except TransferError (List TransferTx))) ≠
      some (Except.error (TransferError.InsufficientBalance
        (truncate_to_six_decimals (10 ^ 12))
        ({ max_flow := 0, transfers := [] } : PathfindingResult).max_flow 0 1)) := by
  refine ⟨by decide, by decide, by decide⟩

/-! ## C6: the transaction sequence -/

theorem approval_not_settlement {d : CallData} (h : is_approval_call d = true) :
    is_settlement_call d = false := by
  cases d <;> simp_all [is_approval_call, is_settlement_call]

theorem unwrap_not_settlement {d : CallData} (h : is_unwrap_call d = true) :
    is_settlement_call d = false := by
  cases d <;> simp_all [is_unwrap_call, is_settlement_call]

theorem rewrap_not_settlement {d : CallData} (h : is_rewrap_call d = true) :
    is_settlement_call d = false := by
  cases d <;> simp_all [is_rewrap_call, is_settlement_call]

/-- The transactions contributed by one wrapper are unwrap calls (first
component) and re-wrap calls (second component), all with value zero. -/
theorem unwrap_rewrap_for_spec (hub : Nat) (token_info_map : Nat → Option TokenInfo)
    (balance_map : Nat → Option Nat) (now : Nat) (wrapper amount_dem : Nat) :
    (∀ tx ∈ (unwrap_rewrap_for hub token_info_map balance_map now wrapper amount_dem).1,
      is_unwrap_call tx.data = true ∧ tx.value = 0) ∧
    (∀ tx ∈ (unwrap_rewrap_for hub token_info_map balance_map now wrapper amount_dem).2,
      is_rewrap_call tx.data = true ∧ tx.value = 0) := by
  rcases htim : token_info_map wrapper with _ | info
  · simp [unwrap_rewrap_for, htim]
  · rcases hbal : balance_map wrapper with _ | current <;>
      simp only [unwrap_rewrap_for, htim, hbal] <;>
      split_ifs <;>
      simp [is_unwrap_call, is_rewrap_call]

/-- The builder loop yields unwrap calls and re-wrap calls, all with value
zero, regardless of the iteration order. -/
theorem build_unwraps_rewraps_spec (hub : Nat) (token_info_map : Nat → Option TokenInfo)
    (balance_map : Nat → Option Nat) (now : Nat) (unwrapped : Nat → Option (Nat × Nat))
    (iter : List Nat) :
    (∀ tx ∈ (build_unwraps_rewraps hub token_info_map balance_map now unwrapped iter).1,
      is_unwrap_call tx.data = true ∧ tx.value = 0) ∧
    (∀ tx ∈ (build_unwraps_rewraps hub token_info_map balance_map now unwrapped iter).2,
      is_rewrap_call tx.data = true ∧ tx.value = 0) := by
  induction iter with
  | nil => simp [build_unwraps_rewraps]
  | cons w rest ih =>
    rcases hu : unwrapped w with _ | p
    · simp only [build_unwraps_rewraps, hu]
      simpa using ih
    · obtain ⟨amt, own⟩ := p
      simp only [build_unwraps_rewraps, hu]
      constructor
      · intro tx htx
        rcases List.mem_append.mp htx with hh | hh
        · exact (unwrap_rewrap_for_spec hub token_info_map balance_map now w amt).1 tx hh
        · exact ih.1 tx hh
      · intro tx htx
        rcases List.mem_append.mp htx with hh | hh
        · exact (unwrap_rewrap_for_spec hub token_info_map balance_map now w amt).2 tx hh
        · exact ih.2 tx hh

/-- Shape of a successful assembly: an optional approval call, then the unwrap
calls, then exactly one settlement call, then the re-wrap calls, every
transaction with value zero. -/
theorem assemble_ok_shape {hub : Nat} {self_check : Bool} {sender receiver : Nat}
    {path : PathfindingResult} {token_info_map : Nat → Option TokenInfo}
    {wrapped_totals : Nat → Option (Nat × String)} {iter : List Nat}
    {balance_map : Nat → Option Nat} {opts : AdvancedTransferOptions}
    {check_approval : Bool} {approval_probe : Option Bool} {now : Nat} {txs : List TransferTx}
    (h : assemble_transactions_inner hub self_check sender receiver path token_info_map
      wrapped_totals iter balance_map opts check_approval approval_probe now =
        some (.ok txs)) :
    ∃ apr unwraps settle rewraps,
      txs = apr ++ unwraps ++ [settle] ++ rewraps ∧
      (apr = [] ∨ ∃ a, apr = [a] ∧ is_approval_call a.data = true) ∧
      (∀ tx ∈ unwraps, is_unwrap_call tx.data = true) ∧
      is_settlement_call settle.data = true ∧
      (∀ tx ∈ rewraps, is_rewrap_call tx.data = true) ∧
      (txs.filter fun tx => is_settlement_call tx.data).length = 1 ∧
      (∀ tx ∈ txs, tx.value = 0) := by
  simp only [assemble_transactions_inner] at h
  rcases hm : create_flow_matrix sender receiver (u256_to_u192_local path.max_flow)
      (steps_for_matrix (replace_wrapped_tokens path
        (expected_unwrapped_totals wrapped_totals token_info_map now))) with _ | r
  · simp only [hm] at h
    exact Option.noConfusion h
  · rcases r with e | fm
    · simp only [hm] at h
      exact Except.noConfusion (Option.some.inj h)
    · simp only [hm] at h
      have htxs := (Except.ok.inj (Option.some.inj h)).symm
      refine ⟨_, _, _, _, htxs, ?_, ?_, rfl, ?_, ?_, ?_⟩
      · by_cases hn : (if (check_approval && self_check) = true then
            approval_probe.getD true else true) = true
        · rw [if_pos hn]
          exact Or.inr ⟨_, rfl, rfl⟩
        · rw [if_neg hn]
          exact Or.inl rfl
      · intro tx htx
        exact ((build_unwraps_rewraps_spec hub token_info_map balance_map now
          (expected_unwrapped_totals wrapped_totals token_info_map now) iter).1 tx htx).1
      · intro tx htx
        exact ((build_unwraps_rewraps_spec hub token_info_map balance_map now
          (expected_unwrapped_totals wrapped_totals token_info_map now) iter).2 tx htx).1
      · rw [htxs]
        rw [List.filter_append, List.filter_append, List.filter_append]
        have hapr : ∀ (l : List TransferTx), (∀ tx ∈ l, is_approval_call tx.data = true) →
            (l.filter fun tx => is_settlement_call tx.data) = [] := by
          intro l hl
          rw [List.filter_eq_nil_iff]
          intro tx htx
          simp [approval_not_settlement (hl tx htx)]
        have hu : ((build_unwraps_rewraps hub token_info_map balance_map now
            (expected_unwrapped_totals wrapped_totals token_info_map now) iter).1.filter
              fun tx => is_settlement_call tx.data) = [] := by
          rw [List.filter_eq_nil_iff]
          intro tx htx
          simp [unwrap_not_settlement (((build_unwraps_rewraps_spec hub token_info_map
            balance_map now (expected_unwrapped_totals wrapped_totals token_info_map now)
            iter).1 tx htx).1)]
        have hr : ((build_unwraps_rewraps hub token_info_map balance_map now
            (expected_unwrapped_totals wrapped_totals token_info_map now) iter).2.filter
              fun tx => is_settlement_call tx.data) = [] := by
          rw [List.filter_eq_nil_iff]
          intro tx htx
          simp [rewrap_not_settlement (((build_unwraps_rewraps_spec hub token_info_map
            balance_map now (expected_unwrapped_totals wrapped_totals token_info_map now)
            iter).2 tx htx).1)]
        have ha : (((if (if (check_approval && self_check) = true then
            approval_probe.getD true else true) = true then
              [{ to_address := hub, data := CallData.approveCall sender true, value := 0 }]
            else []) : List TransferTx).filter fun tx => is_settlement_call tx.data) = [] := by
          apply hapr
          intro tx htx
          by_cases hn : (if (check_approval && self_check) = true then
              approval_probe.getD true else true) = true
          · rw [if_pos hn] at htx
            rcases List.mem_cons.mp htx with rfl | hc
            · rfl
            · exact absurd hc (by simp)
          · rw [if_neg hn] at htx
            exact absurd htx (by simp)
        rw [ha, hu, hr]
        rfl
      · rw [htxs]
        intro tx htx
        rcases List.mem_append.mp htx with htx | htx
        · rcases List.mem_append.mp htx with htx | htx
          · rcases List.mem_append.mp htx with htx | htx
            · by_cases hn : (if (check_approval && self_check) = true then
                  approval_probe.getD true else true) = true
              · rw [if_pos hn] at htx
                rcases List.mem_cons.mp htx with rfl | hc
                · rfl
                · exact absurd hc (by simp)
              · rw [if_neg hn] at htx
                exact absurd htx (by simp)
            · exact ((build_unwraps_rewraps_spec hub token_info_map balance_map now
                (expected_unwrapped_totals wrapped_totals token_info_map now) iter).1
                  tx htx).2
          · rcases List.mem_cons.mp htx with rfl | hc
            · rfl
            · exact absurd hc (by simp)
        · exact ((build_unwraps_rewraps_spec hub token_info_map balance_map now
            (expected_unwrapped_totals wrapped_totals token_info_map now) iter).2 tx htx).2

/-- C6 (claim): every transaction list returned by a successful non-self
`construct_advanced_transfer` consists of an optional approval call, then the
unwrap calls, then exactly one settlement (`operateFlowMatrix`) call, then the
re-wrap calls, and every returned transaction has value `0`. -/
theorem C6_transaction_order (hub : Nat) (self_check : Bool) (sender receiver : Nat)
    (amount : Nat) (options : Option AdvancedTransferOptions)
    (self_unwrap_result : Option TransferTx) (path : PathfindingResult)
    (resolver : Nat → Option TokenInfo) (iter : List Nat) (balance_map : Nat → Option Nat)
    (approval_probe : Option Bool) (now : Nat) (txs : List TransferTx)
    (hne : sender ≠ receiver)
    (h : construct_advanced_transfer hub self_check sender receiver amount options
      self_unwrap_result path resolver iter balance_map approval_probe now =
        some (.ok txs)) :
    ∃ apr unwraps settle rewraps,
      txs = apr ++ unwraps ++ [settle] ++ rewraps ∧
      (apr = [] ∨ ∃ a, apr = [a] ∧ is_approval_call a.data = true) ∧
      (∀ tx ∈ unwraps, is_unwrap_call tx.data = true) ∧
      is_settlement_call settle.data = true ∧
      (∀ tx ∈ rewraps, is_rewrap_call tx.data = true) ∧
      (txs.filter fun tx => is_settlement_call tx.data).length = 1 ∧
      (∀ tx ∈ txs, tx.value = 0) := by
  have hfast : construct_advanced_transfer hub self_check sender receiver amount options
      self_unwrap_result path resolver iter balance_map approval_probe now =
        construct_main hub self_check sender receiver amount options path resolver iter
          balance_map approval_probe now := by
    unfold construct_advanced_transfer
    have hb : (sender == receiver) = false := by simpa using hne
    rw [hb]
    simp
  rw [hfast] at h
  simp only [construct_main] at h
  by_cases hempty : path.transfers.isEmpty
  · rw [if_pos hempty] at h
    exact absurd (Option.some.inj h) (by simp)
  · rw [if_neg hempty] at h
    by_cases hflow : path.max_flow < truncate_to_six_decimals amount
    · rw [if_pos hflow] at h
      exact absurd (Option.some.inj h) (by simp)
    · rw [if_neg hflow] at h
      by_cases hw : (path.transfers.any fun t =>
          ((wrapped_totals_from_path path
            (token_info_map_from_path sender resolver path)) t.token_owner).isSome) &&
          ((options.getD default_options).use_wrapped_balances.getD false == false)
      · rw [if_pos hw] at h
        exact absurd (Option.some.inj h) (by simp)
      · rw [if_neg hw] at h
        exact assemble_ok_shape h

/-- Witness for C6 at a concrete successful transfer build. -/
theorem C6_transaction_order_witness :
    ((0 : Nat) ≠ 1) ∧
    construct_advanced_transfer 99 true 0 1 (5 * 10 ^ 12) none none
        { max_flow := 10 ^ 13,
          transfers := [{ from_address := 0, to_address := 1, token_owner := 0,
                          value := 10 ^ 13 }] }
        (fun _ => none) [] (fun _ => none) none 0 =
      some (.ok [{ to_address := 99, data := .approveCall 0 true, value := 0 },
                 { to_address := 99,
                   data := .operateFlowMatrixCall [0, 1] [(1, 10 ^ 13)] [(0, [0], [])]
                     [0, 0, 0, 0, 0, 1],
                   value := 0 }]) ∧
    (∃ apr unwraps settle rewraps,
      [({ to_address := 99, data := .approveCall 0 true, value := 0 } : TransferTx),
        { to_address := 99,
          data := .operateFlowMatrixCall [0, 1] [(1, 10 ^ 13)] [(0, [0], [])]
            [0, 0, 0, 0, 0, 1],
          value := 0 }] = apr ++ unwraps ++ [settle] ++ rewraps ∧
      (apr = [] ∨ ∃ a, apr = [a] ∧ is_approval_call a.data = true) ∧
      (∀ tx ∈ unwraps, is_unwrap_call tx.data = true) ∧
      is_settlement_call settle.data = true ∧
      (∀ tx ∈ rewraps, is_rewrap_call tx.data = true) ∧
      ([({ to_address := 99, data := .approveCall 0 true, value := 0 } : TransferTx),
        { to_address := 99,
          data := .operateFlowMatrixCall [0, 1] [(1, 10 ^ 13)] [(0, [0], [])]
            [0, 0, 0, 0, 0, 1],
          value := 0 }].filter fun tx => is_settlement_call tx.data).length = 1 ∧
      (∀ tx ∈ [({ to_address := 99, data := .approveCall 0 true, value := 0 } : TransferTx),
        { to_address := 99,
          data := .operateFlowMatrixCall [0, 1] [(1, 10 ^ 13)] [(0, [0], [])]
            [0, 0, 0, 0, 0, 1],
          value := 0 }], tx.value = 0)) :=
  ⟨by decide, by decide,
    C6_transaction_order 99 true 0 1 (5 * 10 ^ 12) none none
      { max_flow := 10 ^ 13,
        transfers := [{ from_address := 0, to_address := 1, token_owner := 0,
                        value := 10 ^ 13 }] }
      (fun _ => none) [] (fun _ => none) none 0 _ (by decide) (by decide)⟩

/-! ## C3: the inflationary unwrap amount -/

/-- C3 (amended): for an inflationary wrapper with a positive anchor timestamp
the emitted unwrap call carries the pathfinder total converted
static-to-demurraged and then back demurraged-to-static (a floor-division
round-trip of the total itself), not `demurraged_to_static` of the total. -/
theorem C3_inflationary_unwrap_amount (hub : Nat) (token_info_map : Nat → Option TokenInfo)
    (wrapped_totals : Nat → Option (Nat × String)) (balance_map : Nat → Option Nat)
    (now : Nat) (w total ts owner : Nat) (iter : List Nat)
    (hinfo : token_info_map w =
      some ⟨ts, "CrcV2_ERC20WrapperDeployed_Inflationary", owner⟩)
    (hts : 0 < ts)
    (hwt : wrapped_totals w = some (total, "CrcV2_ERC20WrapperDeployed_Inflationary"))
    (hmem : w ∈ iter) :
    (⟨w, .unwrapInfCall (atto_circles_to_atto_static_circles
        (atto_static_circles_to_atto_circles total (some ts) now) (some ts) now), 0⟩ :
          TransferTx) ∈
      (build_unwraps_rewraps hub token_info_map balance_map now
        (expected_unwrapped_totals wrapped_totals token_info_map now) iter).1 := by
  have hexp : expected_unwrapped_totals wrapped_totals token_info_map now w =
      some (atto_static_circles_to_atto_circles total (some ts) now, owner) := by
    simp only [expected_unwrapped_totals, hwt, hinfo]
    rw [if_pos hts, if_pos (by decide)]
  induction iter with
  | nil => cases hmem
  | cons x rest ih =>
    rcases List.mem_cons.mp hmem with rfl | hmem2
    · simp only [build_unwraps_rewraps, hexp]
      apply List.mem_append.mpr
      left
      simp only [unwrap_rewrap_for, hinfo]
      rw [if_neg (by decide), if_pos (by decide), if_pos hts]
      rcases balance_map w with _ | current <;> simp
    · simp only [build_unwraps_rewraps]
      exact List.mem_append.mpr (Or.inr (ih hmem2))

/-- Concrete C3 scenario: wrapper `2` is an inflationary wrapper for avatar
`3`, anchored one day after the epoch, with pathfinder total `10^18`. -/
def info_c3 : TokenInfo := ⟨1602806400, "CrcV2_ERC20WrapperDeployed_Inflationary", 3⟩

/-- Token-info map of the concrete C3 scenario. -/
def tim_c3 : Nat → Option TokenInfo := fun a => if a == 2 then some info_c3 else none

/-- Wrapped totals of the concrete C3 scenario. -/
def wt_c3 : Nat → Option (Nat × String) := fun a =>
  if a == 2 then some (10 ^ 18, "CrcV2_ERC20WrapperDeployed_Inflationary") else none

/-- Witness for the amended C3 at the concrete one-wrapper scenario. -/
theorem C3_inflationary_unwrap_amount_witness :
    tim_c3 2 = some ⟨1602806400, "CrcV2_ERC20WrapperDeployed_Inflationary", 3⟩ ∧
    (0 : Nat) < 1602806400 ∧
    wt_c3 2 = some (10 ^ 18, "CrcV2_ERC20WrapperDeployed_Inflationary") ∧
    (2 : Nat) ∈ [2] ∧
    (⟨2, .unwrapInfCall (atto_circles_to_atto_static_circles
        (atto_static_circles_to_atto_circles (10 ^ 18) (some 1602806400) 0)
        (some 1602806400) 0), 0⟩ : TransferTx) ∈
      (build_unwraps_rewraps 99 tim_c3 (fun _ => none) 0
        (expected_unwrapped_totals wt_c3 tim_c3 0) [2]).1 :=
  ⟨by decide, by decide, by decide, by decide,
    C3_inflationary_unwrap_amount 99 tim_c3 wt_c3 (fun _ => none) 0 2 (10 ^ 18)
      1602806400 3 [2] (by decide) (by decide) (by decide) (by decide)⟩

/-- C3 (counterexample): on the concrete one-wrapper scenario the emitted
unwrap amount is `999999999999999999` (the floor round-trip of the total
`10^18`), while the claim demands `demurraged_to_static(10^18)`, which is
`1000198707468214629`. -/
theorem C3_unwrap_amount_counterexample :
    (expected_unwrapped_totals wt_c3 tim_c3 0) 2 = some (999801332008598957, 3) ∧
    (build_unwraps_rewraps 99 tim_c3 (fun _ => none) 0
        (expected_unwrapped_totals wt_c3 tim_c3 0) [2]).1 =
      [⟨2, .unwrapInfCall 999999999999999999, 0⟩] ∧
    atto_circles_to_atto_static_circles (10 ^ 18) (some 1602806400) 0 =
      1000198707468214629 ∧
    (999999999999999999 : Nat) ≠ 1000198707468214629 := by
  refine ⟨by decide, by decide, by decide, by decide⟩

/-! ## C4: unwrap ordering across wrappers -/

/-- C4 (amended): the unwrap calls target exactly the wrappers of the
iteration order, one call per wrapper, in that order — the builder emits them
in the order the wrapper map is iterated in, with no sorting. -/
theorem C4_unwraps_follow_iteration_order (hub : Nat)
    (token_info_map : Nat → Option TokenInfo)
    (wrapped_totals : Nat → Option (Nat × String)) (balance_map : Nat → Option Nat)
    (now : Nat) (iter : List Nat)
    (h : ∀ w ∈ iter, ∃ total info,
      wrapped_totals w = some (total, TokenInfo.token_type info) ∧
      token_info_map w = some info ∧
      (TokenInfo.token_type info = "CrcV2_ERC20WrapperDeployed_Demurraged" ∨
        TokenInfo.token_type info = "CrcV2_ERC20WrapperDeployed_Inflationary")) :
    ((build_unwraps_rewraps hub token_info_map balance_map now
        (expected_unwrapped_totals wrapped_totals token_info_map now) iter).1.map
      fun tx => tx.to_address) = iter := by
  induction iter with
  | nil => simp [build_unwraps_rewraps]
  | cons w rest ih =>
    obtain ⟨total, info, hwt, hinfo, hkind⟩ := h w (List.mem_cons_self w rest)
    have hexp : ∃ amt, expected_unwrapped_totals wrapped_totals token_info_map now w =
        some (amt, info.token_owner) := by
      simp only [expected_unwrapped_totals, hwt, hinfo]
      exact ⟨_, rfl⟩
    obtain ⟨amt, hexp⟩ := hexp
    have hhead : ((unwrap_rewrap_for hub token_info_map balance_map now w amt).1.map
        fun tx => tx.to_address) = [w] := by
      simp only [unwrap_rewrap_for, hinfo]
      rcases hkind with hk | hk
      · rw [if_pos (by simp [hk])]
        rfl
      · rw [if_neg (by simp [hk]), if_pos (by simp [hk])]
        rcases balance_map w with _ | current <;> simp
    simp only [build_unwraps_rewraps, hexp, List.map_append, hhead]
    rw [ih fun x hx => h x (List.mem_cons.mpr (Or.inr hx))]
    rfl

/-- Concrete C4 scenario: wrappers `5` and `6` are inflationary wrappers for
the same avatar `7`, each with pathfinder total `10^6`. -/
def info_c4 : TokenInfo := ⟨1602806400, "CrcV2_ERC20WrapperDeployed_Inflationary", 7⟩

/-- Token-info map of the concrete C4 scenario. -/
def tim_c4 : Nat → Option TokenInfo := fun a =>
  if a == 5 || a == 6 then some info_c4 else none

/-- Wrapped totals of the concrete C4 scenario. -/
def wt_c4 : Nat → Option (Nat × String) := fun a =>
  if a == 5 || a == 6 then some (10 ^ 6, "CrcV2_ERC20WrapperDeployed_Inflationary") else none

/-- Witness for the amended C4: the two-wrapper scenario iterated in the order
`[6, 5]`. -/
theorem C4_unwraps_follow_iteration_order_witness :
    (∀ w ∈ [6, 5], ∃ total info,
      wt_c4 w = some (total, TokenInfo.token_type info) ∧ tim_c4 w = some info ∧
      (TokenInfo.token_type info = "CrcV2_ERC20WrapperDeployed_Demurraged" ∨
        TokenInfo.token_type info = "CrcV2_ERC20WrapperDeployed_Inflationary")) ∧
    ((build_unwraps_rewraps 99 tim_c4 (fun _ => none) 0
        (expected_unwrapped_totals wt_c4 tim_c4 0) [6, 5]).1.map
      fun tx => tx.to_address) = [6, 5] :=
  have h : ∀ w ∈ [6, 5], ∃ total info,
      wt_c4 w = some (total, TokenInfo.token_type info) ∧ tim_c4 w = some info ∧
      (TokenInfo.token_type info = "CrcV2_ERC20WrapperDeployed_Demurraged" ∨
        TokenInfo.token_type info = "CrcV2_ERC20WrapperDeployed_Inflationary") := by
    intro w hw
    rcases List.mem_cons.mp hw with rfl | hw2
    · exact ⟨10 ^ 6, info_c4, by decide, by decide, Or.inr (by decide)⟩
    · rcases List.mem_cons.mp hw2 with rfl | hw3
      · exact ⟨10 ^ 6, info_c4, by decide, by decide, Or.inr (by decide)⟩
      · exact absurd hw3 (by simp)
  ⟨h, C4_unwraps_follow_iteration_order 99 tim_c4 wt_c4 (fun _ => none) 0 [6, 5] h⟩

/-- C4 (counterexample): iterating the two-wrapper map in the legitimate
enumeration order `[6, 5]` emits the unwrap calls targeting `6` before `5` —
not ascending by wrapper address — and the output differs from the one
produced under the enumeration `[5, 6]`, so the emitted sequence depends on
the (unspecified) `HashMap` iteration order. -/
theorem C4_unwrap_order_counterexample :
    ((build_unwraps_rewraps 99 tim_c4 (fun _ => none) 0
        (expected_unwrapped_totals wt_c4 tim_c4 0) [6, 5]).1.map
      fun tx => tx.to_address) = [6, 5] ∧
    ¬ List.Pairwise (fun a b => a ≤ b) [6, 5] ∧
    (build_unwraps_rewraps 99 tim_c4 (fun _ => none) 0
        (expected_unwrapped_totals wt_c4 tim_c4 0) [5, 6]).1 ≠
      (build_unwraps_rewraps 99 tim_c4 (fun _ => none) 0
        (expected_unwrapped_totals wt_c4 tim_c4 0) [6, 5]).1 := by
  refine ⟨by decide, by decide, by decide⟩

end Circles
